import Mathlib

/-!
Verification development for the `light-ron` text-to-event parser
(`src/deserial/lexer.rs` and `src/deserial/mod.rs`).

The source text is modelled as a `List Char`; positions are UTF-8 byte
offsets, as produced by Rust's `CharIndices`.  Machine integers appear as
`Int` with explicit two's-complement bounds; the value of a parsed `f64`
is modelled as the exact decimal rational it denotes (IEEE rounding is not
modelled, and no claim depends on it).  Rust panics are modelled as
`fatal` results carrying the panic message.

Unicode character classes (`char::is_whitespace`, `char::is_numeric`,
`char::is_alphanumeric`) are modelled by their ASCII fragments, which is
the fragment the format's syntax and every claim exercise.
-/

namespace LightRon

/-- Models Rust `char::is_whitespace` (ASCII fragment). -/
def rustIsWhitespace (c : Char) : Bool := c.isWhitespace

/-- Models Rust `char::is_numeric` (ASCII fragment: the decimal digits). -/
def rustIsNumeric (c : Char) : Bool := c.isDigit

/-- Models Rust `char::is_alphanumeric` (ASCII fragment). -/
def rustIsAlphanumeric (c : Char) : Bool := c.isAlphanum

/-- Models Rust `CharIndices` starting at byte offset `pos`: each character
paired with its UTF-8 byte offset. -/
def charIndicesFrom (pos : Nat) : List Char → List (Nat × Char)
  | [] => []
  | c :: rest => (pos, c) :: charIndicesFrom (pos + c.utf8Size) rest

/-- `src.char_indices()` from the start of the buffer. -/
def charIndices (src : List Char) : List (Nat × Char) := charIndicesFrom 0 src

/-- `src.len()`: the UTF-8 byte length of the buffer. -/
def byteLen (src : List Char) : Nat := (src.map Char.utf8Size).sum

/-- Models `&src[a..b]` for boundary-aligned byte offsets `a`, `b`: the
characters whose byte offset lies in the half-open range. -/
def sliceBytes (src : List Char) (a b : Nat) : List Char :=
  ((charIndices src).filter (fun p => decide (a ≤ p.1 ∧ p.1 < b))).map Prod.snd

/-- The token type of `lexer.rs` (`enum Token`).  `Ident` and `Str` carry
byte spans into the source buffer; `Float` carries the exact decimal
rational the literal denotes. -/
inductive Token where
  | LParen
  | RParen
  | LBracket
  | RBracket
  | LCurly
  | RCurly
  | Colon
  | Comma
  | Ident (a b : Nat)
  | Bool (b : Bool)
  | Float (x : Rat)
  | Int (x : Int)
  | Char (c : Char)
  | Str (a b : Nat)
  | SomeOptValue
  | NoneOptValue
  deriving DecidableEq

/-- The `enum Number` of `lexer.rs`. -/
inductive Number where
  | Int (x : Int)
  | Float (x : Rat)
  deriving DecidableEq

/-- The `Lexer` struct: the source, the remaining `CharIndices` iterator,
and the one-character pushback slot `trailing`. -/
structure Lexer where
  src : List Char
  iter : List (Nat × Char)
  trailing : Option (Nat × Char)
  deriving DecidableEq

/-- `Lexer::new`. -/
def Lexer.new (src : List Char) : Lexer := ⟨src, charIndices src, none⟩

/-- `Lexer::get_string`. -/
def Lexer.getString (l : Lexer) (a b : Nat) : List Char := sliceBytes l.src a b

/-- `Lexer::next_char`: drain `trailing` before consulting the iterator. -/
def Lexer.nextChar : Lexer → Option ((Nat × Char) × Lexer)
  | ⟨s, it, some t⟩ => some (t, ⟨s, it, none⟩)
  | ⟨_, [], none⟩ => none
  | ⟨s, c :: it, none⟩ => some (c, ⟨s, it, none⟩)

/-- The `while val.1.is_whitespace()` loop of `ignore_whitespaces`, which
reads from the iterator only. -/
def skipWsIter : List (Nat × Char) → Option ((Nat × Char) × List (Nat × Char))
  | [] => none
  | c :: rest => if rustIsWhitespace c.2 then skipWsIter rest else some (c, rest)

/-- `Lexer::ignore_whitespaces`: read one char via `next_char`, loop on the
iterator while whitespace, and park the first non-whitespace char in
`trailing`.  `none` models the `?`-propagated end of input. -/
def Lexer.ignoreWhitespaces (l : Lexer) : Option Lexer :=
  match l.nextChar with
  | none => none
  | some (v, l1) =>
    if rustIsWhitespace v.2 then
      match skipWsIter l1.iter with
      | none => none
      | some (v', it') => some ⟨l.src, it', some v'⟩
    else
      some ⟨l1.src, l1.iter, some v⟩

/-- The `while val.1 != '"'` loop of `read_string`, over the iterator. -/
def seekQuoteIter : List (Nat × Char) → Option (Nat × List (Nat × Char))
  | [] => none
  | (i, c) :: rest => if c = '"' then some (i, rest) else seekQuoteIter rest

/-- The search for the closing quote, starting with `next_char` (so the
`trailing` slot is consulted first). -/
def Lexer.seekQuote (l : Lexer) : Option (Nat × Lexer) :=
  match l.trailing with
  | some (i, c) =>
    if c = '"' then some (i, ⟨l.src, l.iter, none⟩)
    else
      match seekQuoteIter l.iter with
      | none => none
      | some (i', it') => some (i', ⟨l.src, it', none⟩)
  | none =>
    match seekQuoteIter l.iter with
    | none => none
    | some (i', it') => some (i', ⟨l.src, it', none⟩)

/-- `Lexer::read_string` (the opening quote has already been consumed).
An immediately-following quote yields the fixed span `Str 0 0`; `none`
models the `?`-propagated end of input of an unterminated string. -/
def Lexer.readString (l : Lexer) : Option (Token × Lexer) :=
  match l.nextChar with
  | none => none
  | some (start, l1) =>
    if start.2 = '"' then some (.Str 0 0, l1)
    else
      match l1.seekQuote with
      | none => none
      | some (endByte, l2) => some (.Str start.1 endByte, l2)

/-- Result of a lexer routine: a value with the updated lexer, the
`?`-propagated end of input, or a panic with its message. -/
inductive LexRes (α : Type) where
  | ok (a : α) (l : Lexer)
  | eof
  | fatal (msg : String)
  deriving DecidableEq

/-- `Lexer::read_char` (the opening quote has already been consumed). -/
def Lexer.readChar (l : Lexer) : LexRes Char :=
  match l.nextChar with
  | none => .eof
  | some (start, l1) =>
    if start.2 = '\x27' then .fatal ("Char was empty!")
    else
      match l1.nextChar with
      | none => .eof
      | some (e, l2) =>
        if e.2 ≠ '\x27' then .fatal ("More than one char inside char!")
        else .ok start.2 l2

/-- The greedy scan loop shared by `read_number` and `read_ident` over the
iterator: consume while `p` holds; at the first other character record its
offset and park it in `trailing`; at end of input the recorded offset is
`srcLen`. -/
def scanWhileIter (p : Char → Bool) (srcLen : Nat) :
    List (Nat × Char) → Nat × Option (Nat × Char) × List (Nat × Char)
  | [] => (srcLen, none, [])
  | (i, c) :: rest =>
    if p c then scanWhileIter p srcLen rest else (i, some (i, c), rest)

/-- The greedy scan starting with `next_char` (so `trailing` is consulted
first), returning the end offset and the updated lexer. -/
def scanWhile (p : Char → Bool) (srcLen : Nat) (l : Lexer) : Nat × Lexer :=
  match l.trailing with
  | some (i, c) =>
    if p c then
      let r := scanWhileIter p srcLen l.iter
      (r.1, ⟨l.src, r.2.2, r.2.1⟩)
    else (i, ⟨l.src, l.iter, some (i, c)⟩)
  | none =>
    let r := scanWhileIter p srcLen l.iter
    (r.1, ⟨l.src, r.2.2, r.2.1⟩)

/-- The character class consumed by the `read_number` scan. -/
def numScanPred (c : Char) : Bool := rustIsNumeric c || c == '.'

/-- The character class consumed by the `read_ident` scan. -/
def identScanPred (c : Char) : Bool := rustIsAlphanumeric c || c == '_'

/-- Digit run to its numeric value. -/
def digitsVal (ds : List Char) : Nat :=
  ds.foldl (fun n c => n * 10 + (c.toNat - 48)) 0

/-- `str::trim` (drop leading and trailing whitespace). -/
def rustTrim (s : List Char) : List Char :=
  ((s.dropWhile rustIsWhitespace).reverse.dropWhile rustIsWhitespace).reverse

/-- Split an optional leading sign off a numeric slice. -/
def stripSign : List Char → Bool × List Char
  | '-' :: r => (true, r)
  | '+' :: r => (false, r)
  | r => (false, r)

/-- Models `str::parse::<i64>`: optional sign, one or more ASCII digits,
value within the 64-bit two's-complement range. -/
def parseI64 (s : List Char) : Option Int :=
  let p := stripSign s
  if p.2 = [] then none
  else if p.2.all Char.isDigit then
    let v : Int := if p.1 then -(digitsVal p.2 : Int) else (digitsVal p.2 : Int)
    if -(2 ^ 63) ≤ v ∧ v < 2 ^ 63 then some v else none
  else none

/-- Models `str::parse::<f64>` on the sign/digit/dot slices the number
scanner produces: optional sign, then digits with at most one dot and at
least one digit.  The value is the exact decimal rational (rounding to the
nearest `f64` is not modelled); `inf`/`nan`/exponent forms cannot occur in
the scanner's slices and are outside the modelled domain. -/
def parseF64 (s : List Char) : Option Rat :=
  let p := stripSign s
  let ip := p.2.takeWhile Char.isDigit
  let rest := p.2.dropWhile Char.isDigit
  match rest with
  | [] =>
    if ip = [] then none
    else some (if p.1 then -(digitsVal ip : Rat) else (digitsVal ip : Rat))
  | '.' :: frac =>
    if frac.all Char.isDigit ∧ (ip ≠ [] ∨ frac ≠ []) then
      let q : Rat := (digitsVal ip : Rat) + (digitsVal frac : Rat) / (10 : Rat) ^ frac.length
      some (if p.1 then -q else q)
    else none
  | _ => none

/-- `Lexer::read_number` (the leading digit or `-` at byte `startByte` has
already been consumed): greedy scan, slice, then try `i64` before `f64`;
panic if neither parses. -/
def Lexer.readNumber (l : Lexer) (startByte : Nat) : LexRes Number :=
  let r := scanWhile numScanPred (byteLen l.src) l
  let slice := sliceBytes l.src startByte r.1
  match parseI64 (rustTrim slice) with
  | some x => .ok (.Int x) r.2
  | none =>
    match parseF64 (rustTrim slice) with
    | some x => .ok (.Float x) r.2
    | none => .fatal ("Invalid number (got \"" ++ String.mk slice ++ "\")!")

/-- `Lexer::read_ident` (the leading char at byte `startByte` has already
been consumed): greedy alphanumeric/underscore scan, returning the span. -/
def Lexer.readIdent (l : Lexer) (startByte : Nat) : (Nat × Nat) × Lexer :=
  let r := scanWhile identScanPred (byteLen l.src) l
  ((startByte, r.1), r.2)

/-- `Lexer::next_token`.  `eof` models returning `None`; every `eof` path
leaves the lexer with an exhausted iterator and empty `trailing`. -/
def Lexer.nextToken (l : Lexer) : LexRes Token :=
  match l.ignoreWhitespaces with
  | none => .eof
  | some l1 =>
    match l1.nextChar with
    | none => .eof
    | some (cb, l2) =>
      let c := cb.2
      if c = '(' then .ok .LParen l2
      else if c = ')' then .ok .RParen l2
      else if c = '[' then .ok .LBracket l2
      else if c = ']' then .ok .RBracket l2
      else if c = '\x7b' then .ok .LCurly l2
      else if c = '\x7d' then .ok .RCurly l2
      else if c = ':' then .ok .Colon l2
      else if c = ',' then .ok .Comma l2
      else if c = '"' then
        match l2.readString with
        | none => .eof
        | some (t, l3) => .ok t l3
      else if c = '\x27' then
        match l2.readChar with
        | .eof => .eof
        | .fatal m => .fatal m
        | .ok ch l3 => .ok (.Char ch) l3
      else if c.isDigit || c = '-' then
        match l2.readNumber cb.1 with
        | .ok (.Int x) l3 => .ok (.Int x) l3
        | .ok (.Float x) l3 => .ok (.Float x) l3
        | .eof => .eof
        | .fatal m => .fatal m
      else
        let r := l2.readIdent cb.1
        let s := sliceBytes l.src r.1.1 r.1.2
        if s = ("false").toList then .ok (.Bool false) r.2
        else if s = ("true").toList then .ok (.Bool true) r.2
        else if s = ("Some").toList then .ok .SomeOptValue r.2
        else if s = ("None").toList then .ok .NoneOptValue r.2
        else .ok (.Ident r.1.1 r.1.2) r.2

/-- The `enum InternalState` context-stack entries of `mod.rs`. -/
inductive InternalState where
  | SecondValue
  | Map
  | Struct (name : Option (List Char))
  | Tuple (name : Option (List Char))
  | List
  | OptionalSomeValue
  | EndedOptionalSomeValue
  deriving DecidableEq

/-- The `struct RonDeserializer`.  `stack` is stored top-first (its head is
the `Vec`'s last element, the one `stack.last()` inspects); `tok_queue` is
stored front-first (`insert(0, t)` is cons, `remove(0)` pops the head). -/
structure RonDeserializer where
  lexer : Lexer
  tok_queue : List Token
  stack : List InternalState
  deriving DecidableEq

/-- The `enum RonPrimitive` with borrowed text materialised. -/
inductive RonPrimitive where
  | NoneOptValue
  | Int (x : Int)
  | Float (x : Rat)
  | Bool (b : Bool)
  | Char (c : Char)
  | Str (s : List Char)
  | Enum (s : List Char)
  deriving DecidableEq

/-- The `enum RonEvent` with borrowed text materialised. -/
inductive RonEvent where
  | OptionalSomeValue
  | Primitive (p : RonPrimitive)
  | StructStart (name : Option (List Char))
  | NamedField (name : List Char)
  | StructEnd (name : Option (List Char))
  | TupleStart (name : Option (List Char))
  | TupleEnd (name : Option (List Char))
  | MapStart
  | MapEnd
  | ListStart
  | ListEnd
  | Eof
  deriving DecidableEq

/-- Result of a deserializer routine: a value with the updated state, or a
panic with its message. -/
inductive PStep (α : Type) where
  | ok (a : α) (d : RonDeserializer)
  | fatal (msg : String)
  deriving DecidableEq

/-- `RonDeserializer::new`. -/
def RonDeserializer.new (src : List Char) : RonDeserializer :=
  ⟨Lexer.new src, [], []⟩

/-- `self.lexer.get_string(a, b)`. -/
def RonDeserializer.getString (d : RonDeserializer) (a b : Nat) : List Char :=
  d.lexer.getString a b

/-- `self.tok_queue.insert(0, t)`. -/
def pushFront (t : Token) (d : RonDeserializer) : RonDeserializer :=
  ⟨d.lexer, t :: d.tok_queue, d.stack⟩

/-- `RonDeserializer::next_token`: drain the pushback queue before asking
the lexer.  On lexer end of input the lexer is left exhausted. -/
def RonDeserializer.nextToken (d : RonDeserializer) : PStep (Option Token) :=
  match d.tok_queue with
  | t :: rest => .ok (some t) ⟨d.lexer, rest, d.stack⟩
  | [] =>
    match d.lexer.nextToken with
    | .ok t l => .ok (some t) ⟨l, [], d.stack⟩
    | .eof => .ok none ⟨⟨d.lexer.src, [], none⟩, [], d.stack⟩
    | .fatal m => .fatal m

/-- `if name.is_some() { self.tok_queue.insert(0, ident_tok) }` (written
as a match on the option, which is what `is_some` tests). -/
def restoreIdent : Option (List Char) → Token → RonDeserializer → RonDeserializer
  | some _, t, d => pushFront t d
  | none, _, d => d

/-- `RonDeserializer::try_struct`: optional leading identifier, `(`, an
identifier and `:` are all required to commit; every failure pushes the
consumed tokens back in reverse order. -/
def RonDeserializer.tryStruct (d : RonDeserializer) : PStep (Option RonEvent) :=
  match d.nextToken with
  | .fatal m => .fatal m
  | .ok none d1 => .ok none d1
  | .ok (some identTok) d1 =>
    let nd : Option (List Char) × RonDeserializer :=
      match identTok with
      | .Ident a b => (some (d1.getString a b), d1)
      | _ => (none, pushFront identTok d1)
    match nd.2.nextToken with
    | .fatal m => .fatal m
    | .ok none d3 => .ok none (restoreIdent nd.1 identTok d3)
    | .ok (some parenTok) d3 =>
      match parenTok with
      | .LParen =>
        match d3.nextToken with
        | .fatal m => .fatal m
        | .ok none d4 =>
          .ok none (restoreIdent nd.1 identTok (pushFront parenTok d4))
        | .ok (some fieldTok) d4 =>
          match fieldTok with
          | .Ident _ _ =>
            match d4.nextToken with
            | .fatal m => .fatal m
            | .ok none d5 =>
              .ok none (restoreIdent nd.1 identTok
                (pushFront parenTok (pushFront fieldTok d5)))
            | .ok (some colonTok) d5 =>
              match colonTok with
              | .Colon =>
                let d6 := pushFront fieldTok (pushFront colonTok d5)
                .ok (some (.StructStart nd.1)) ⟨d6.lexer, d6.tok_queue, .Struct nd.1 :: d6.stack⟩
              | _ =>
                .ok none (restoreIdent nd.1 identTok
                  (pushFront parenTok (pushFront fieldTok (pushFront colonTok d5))))
          | _ =>
            .ok none (restoreIdent nd.1 identTok
              (pushFront parenTok (pushFront fieldTok d4)))
      | _ => .ok none (restoreIdent nd.1 identTok (pushFront parenTok d3))

/-- `RonDeserializer::try_tuple`: optional leading identifier then `(`. -/
def RonDeserializer.tryTuple (d : RonDeserializer) : PStep (Option RonEvent) :=
  match d.nextToken with
  | .fatal m => .fatal m
  | .ok none d1 => .ok none d1
  | .ok (some identTok) d1 =>
    let nd : Option (List Char) × RonDeserializer :=
      match identTok with
      | .Ident a b => (some (d1.getString a b), d1)
      | _ => (none, pushFront identTok d1)
    match nd.2.nextToken with
    | .fatal m => .fatal m
    | .ok none d3 => .ok none (restoreIdent nd.1 identTok d3)
    | .ok (some tok) d3 =>
      match tok with
      | .LParen =>
        .ok (some (.TupleStart nd.1)) ⟨d3.lexer, d3.tok_queue, .Tuple nd.1 :: d3.stack⟩
      | _ => .ok none (restoreIdent nd.1 identTok (pushFront tok d3))

/-- `RonDeserializer::try_list`. -/
def RonDeserializer.tryList (d : RonDeserializer) : PStep (Option RonEvent) :=
  match d.nextToken with
  | .fatal m => .fatal m
  | .ok none d1 => .ok none d1
  | .ok (some tok) d1 =>
    match tok with
    | .LBracket => .ok (some .ListStart) ⟨d1.lexer, d1.tok_queue, .List :: d1.stack⟩
    | _ => .ok none (pushFront tok d1)

/-- `RonDeserializer::try_map`. -/
def RonDeserializer.tryMap (d : RonDeserializer) : PStep (Option RonEvent) :=
  match d.nextToken with
  | .fatal m => .fatal m
  | .ok none d1 => .ok none d1
  | .ok (some tok) d1 =>
    match tok with
    | .LCurly => .ok (some .MapStart) ⟨d1.lexer, d1.tok_queue, .Map :: d1.stack⟩
    | _ => .ok none (pushFront tok d1)

/-- `RonDeserializer::try_optional_some`: the `Some` marker, then a
mandatory `(` (panic if it does not follow). -/
def RonDeserializer.tryOptionalSome (d : RonDeserializer) : PStep (Option RonEvent) :=
  match d.nextToken with
  | .fatal m => .fatal m
  | .ok none d1 => .ok none d1
  | .ok (some tok) d1 =>
    match tok with
    | .SomeOptValue =>
      match d1.nextToken with
      | .fatal m => .fatal m
      | .ok (some .LParen) d2 =>
        .ok (some .OptionalSomeValue) ⟨d2.lexer, d2.tok_queue, .OptionalSomeValue :: d2.stack⟩
      | .ok _ _ => .fatal ("Expected a '(' after a 'Some'!")
    | _ => .ok none (pushFront tok d1)

/-- `RonDeserializer::try_primitive`. -/
def RonDeserializer.tryPrimitive (d : RonDeserializer) : PStep (Option RonEvent) :=
  match d.nextToken with
  | .fatal m => .fatal m
  | .ok none d1 => .ok none d1
  | .ok (some tok) d1 =>
    match tok with
    | .Ident a b => .ok (some (.Primitive (.Enum (d1.getString a b)))) d1
    | .Bool x => .ok (some (.Primitive (.Bool x))) d1
    | .Float x => .ok (some (.Primitive (.Float x))) d1
    | .Int x => .ok (some (.Primitive (.Int x))) d1
    | .Char x => .ok (some (.Primitive (.Char x))) d1
    | .Str a b => .ok (some (.Primitive (.Str (d1.getString a b)))) d1
    | .NoneOptValue => .ok (some (.Primitive .NoneOptValue)) d1
    | _ => .ok none (pushFront tok d1)

/-- `RonDeserializer::try_value`: the six alternatives in strict priority
order. -/
def RonDeserializer.tryValue (d : RonDeserializer) : PStep (Option RonEvent) :=
  match d.tryStruct with
  | .fatal m => .fatal m
  | .ok (some x) d1 => .ok (some x) d1
  | .ok none d1 =>
    match d1.tryTuple with
    | .fatal m => .fatal m
    | .ok (some x) d2 => .ok (some x) d2
    | .ok none d2 =>
      match d2.tryPrimitive with
      | .fatal m => .fatal m
      | .ok (some x) d3 => .ok (some x) d3
      | .ok none d3 =>
        match d3.tryOptionalSome with
        | .fatal m => .fatal m
        | .ok (some x) d4 => .ok (some x) d4
        | .ok none d4 =>
          match d4.tryMap with
          | .fatal m => .fatal m
          | .ok (some x) d5 => .ok (some x) d5
          | .ok none d5 => d5.tryList

/-- Rendering of a token for the `Expected IDENTIFIER, got {x:?}` panic. -/
def tokenText : Token → String
  | .LParen => "LParen"
  | .RParen => "RParen"
  | .LBracket => "LBracket"
  | .RBracket => "RBracket"
  | .LCurly => "LCurly"
  | .RCurly => "RCurly"
  | .Colon => "Colon"
  | .Comma => "Comma"
  | .Ident a b => "Ident(" ++ toString a ++ ", " ++ toString b ++ ")"
  | .Bool x => "Bool(" ++ toString x ++ ")"
  | .Float x => "Float(" ++ toString x ++ ")"
  | .Int x => "Int(" ++ toString x ++ ")"
  | .Char c => "Char(" ++ String.mk (c :: []) ++ ")"
  | .Str a b => "Str(" ++ toString a ++ ", " ++ toString b ++ ")"
  | .SomeOptValue => "SomeOptValue"
  | .NoneOptValue => "NoneOptValue"

/-- Debug rendering of `Option<Token>`. -/
def tokenMsg : Option Token → String
  | none => "None"
  | some t => "Some(" ++ tokenText t ++ ")"

/-- The body of `RonDeserializer::next_event`, as a recursion on the
context stack (the `loop` only repeats after the `EndedOptionalSomeValue`
branch pops the stack top). -/
def RonDeserializer.nextEventGo (lx : Lexer) (q : List Token) :
    List InternalState → PStep RonEvent
  | .Map :: rest =>
    match RonDeserializer.nextToken ⟨lx, q, .Map :: rest⟩ with
    | .fatal m => .fatal m
    | .ok none _ => .fatal ("Expected ',' or '\x7d', got EOF!")
    | .ok (some t) d1 =>
      let dA := match t with
        | .Comma => d1
        | _ => pushFront t d1
      match dA.nextToken with
      | .fatal m => .fatal m
      | .ok none _ => .fatal ("Expected '\x7d' when closing the map, got EOF!")
      | .ok (some t2) d2 =>
        match t2 with
        | .RCurly => .ok .MapEnd ⟨d2.lexer, d2.tok_queue, rest⟩
        | _ =>
          match (pushFront t2 d2).tryValue with
          | .fatal m => .fatal m
          | .ok none _ => .fatal ("Expected key in map!")
          | .ok (some key) d3 =>
            match d3.nextToken with
            | .fatal m => .fatal m
            | .ok (some .Colon) d4 =>
              .ok key ⟨d4.lexer, d4.tok_queue, .SecondValue :: d4.stack⟩
            | .ok _ _ => .fatal ("Expected ':'")
  | .Struct name :: rest =>
    match RonDeserializer.nextToken ⟨lx, q, .Struct name :: rest⟩ with
    | .fatal m => .fatal m
    | .ok none _ => .fatal ("Expected ',' or ')', got EOF!")
    | .ok (some t) d1 =>
      let dA := match t with
        | .Comma => d1
        | _ => pushFront t d1
      match dA.nextToken with
      | .fatal m => .fatal m
      | .ok none _ => .fatal ("Expected ')' when closing the struct, got EOF!")
      | .ok (some t2) d2 =>
        match t2 with
        | .RParen => .ok (.StructEnd name) ⟨d2.lexer, d2.tok_queue, rest⟩
        | _ =>
          match (pushFront t2 d2).nextToken with
          | .fatal m => .fatal m
          | .ok (some (.Ident a b)) d3 =>
            match d3.nextToken with
            | .fatal m => .fatal m
            | .ok (some .Colon) d4 =>
              .ok (.NamedField (d3.getString a b)) ⟨d4.lexer, d4.tok_queue, .SecondValue :: d4.stack⟩
            | .ok _ _ => .fatal ("Expected ':'")
          | .ok x _ => .fatal ("Expected IDENTIFIER, got " ++ tokenMsg x)
  | .SecondValue :: rest =>
    match RonDeserializer.tryValue ⟨lx, q, rest⟩ with
    | .fatal m => .fatal m
    | .ok none _ => .fatal ("Expected value!")
    | .ok (some v) d1 => .ok v d1
  | .Tuple name :: rest =>
    match RonDeserializer.nextToken ⟨lx, q, .Tuple name :: rest⟩ with
    | .fatal m => .fatal m
    | .ok none _ => .fatal ("Expected ',' or ')', got EOF!")
    | .ok (some t) d1 =>
      let dA := match t with
        | .Comma => d1
        | _ => pushFront t d1
      match dA.nextToken with
      | .fatal m => .fatal m
      | .ok none _ => .fatal ("Expected ')' when closing the tuple, got EOF!")
      | .ok (some t2) d2 =>
        match t2 with
        | .RParen => .ok (.TupleEnd name) ⟨d2.lexer, d2.tok_queue, rest⟩
        | _ =>
          match (pushFront t2 d2).tryValue with
          | .fatal m => .fatal m
          | .ok none _ => .fatal ("Expected value!")
          | .ok (some v) d3 => .ok v d3
  | .List :: rest =>
    match RonDeserializer.nextToken ⟨lx, q, .List :: rest⟩ with
    | .fatal m => .fatal m
    | .ok none _ => .fatal ("Expected ',' or ']', got EOF!")
    | .ok (some t) d1 =>
      let dA := match t with
        | .Comma => d1
        | _ => pushFront t d1
      match dA.nextToken with
      | .fatal m => .fatal m
      | .ok none _ => .fatal ("Expected ']' when closing the list, got EOF!")
      | .ok (some t2) d2 =>
        match t2 with
        | .RBracket => .ok .ListEnd ⟨d2.lexer, d2.tok_queue, rest⟩
        | _ =>
          match (pushFront t2 d2).tryValue with
          | .fatal m => .fatal m
          | .ok none _ => .fatal ("Expected value!")
          | .ok (some v) d3 => .ok v d3
  | .OptionalSomeValue :: rest =>
    match RonDeserializer.tryValue ⟨lx, q, .EndedOptionalSomeValue :: rest⟩ with
    | .fatal m => .fatal m
    | .ok none _ => .fatal ("Expected value inside Some option!")
    | .ok (some v) d1 => .ok v d1
  | .EndedOptionalSomeValue :: rest =>
    match RonDeserializer.nextToken ⟨lx, q, .EndedOptionalSomeValue :: rest⟩ with
    | .fatal m => .fatal m
    | .ok (some .RParen) d1 => RonDeserializer.nextEventGo d1.lexer d1.tok_queue rest
    | .ok _ _ => .fatal ("Expected ')'!")
  | [] =>
    match RonDeserializer.tryValue ⟨lx, q, []⟩ with
    | .fatal m => .fatal m
    | .ok (some v) d1 => .ok v d1
    | .ok none d1 => .ok .Eof d1

/-- `RonDeserializer::next_event`. -/
def RonDeserializer.nextEvent (d : RonDeserializer) : PStep RonEvent :=
  RonDeserializer.nextEventGo d.lexer d.tok_queue d.stack

/-- One observed output of `next_event`: an event or a panic message. -/
inductive EventOut where
  | ev (e : RonEvent)
  | fatal (msg : String)
  deriving DecidableEq

/-- Drive `next_event` up to `n` times, stopping at the first panic. -/
def runEvents : Nat → RonDeserializer → List EventOut
  | 0, _ => []
  | n + 1, d =>
    match d.nextEvent with
    | .fatal m => .fatal m :: []
    | .ok e d' => .ev e :: runEvents n d'

/-- The first `n` outputs of `next_event` on a fresh parse of `s`. -/
def eventsOfStr (s : String) (n : Nat) : List EventOut :=
  runEvents n (RonDeserializer.new s.toList)

/-- One observed output of `RonDeserializer::next_token`. -/
inductive TokOut where
  | tok (t : Option Token)
  | fatal (msg : String)
  deriving DecidableEq

/-- Drive the deserializer's `next_token` up to `n` times, recording each
result; this is the observable token stream used to state rollback. -/
def takeTokens : Nat → RonDeserializer → List TokOut
  | 0, _ => []
  | n + 1, d =>
    match d.nextToken with
    | .fatal m => .fatal m :: []
    | .ok t d' => .tok t :: takeTokens n d'

/-- One observed output of `Lexer::next_token`. -/
inductive LexOut where
  | tok (t : Option Token)
  | fatal (msg : String)
  deriving DecidableEq

/-- Drive `Lexer::next_token` up to `n` times. -/
def lexTake : Nat → Lexer → List LexOut
  | 0, _ => []
  | n + 1, l =>
    match l.nextToken with
    | .ok t l' => .tok (some t) :: lexTake n l'
    | .eof => .tok none :: []
    | .fatal m => .fatal m :: []

/-- Nesting check: simulate the open-container stack over an event list;
start events push, end events must match the top, other events are
neutral. -/
def balStep : List InternalState → RonEvent → Option (List InternalState)
  | st, .StructStart n => some (.Struct n :: st)
  | st, .TupleStart n => some (.Tuple n :: st)
  | st, .MapStart => some (.Map :: st)
  | st, .ListStart => some (.List :: st)
  | .Struct n :: st, .StructEnd m => if n = m then some st else none
  | .Tuple n :: st, .TupleEnd m => if n = m then some st else none
  | .Map :: st, .MapEnd => some st
  | .List :: st, .ListEnd => some st
  | st, .Primitive _ => some st
  | st, .NamedField _ => some st
  | st, .OptionalSomeValue => some st
  | st, .Eof => some st
  | _, _ => none

/-- A list of events is balanced when the simulation ends with an empty
stack. -/
def balancedFrom : List InternalState → List RonEvent → Bool
  | st, [] => st.isEmpty
  | st, e :: rest =>
    match balStep st e with
    | none => false
    | some st' => balancedFrom st' rest

/-- Balanced from the empty stack. -/
def balanced (evs : List RonEvent) : Bool := balancedFrom [] evs

/-- Extract the plain events of a run that produced no panic. -/
def okEvents : List EventOut → Option (List RonEvent)
  | [] => some []
  | .ev e :: rest => (okEvents rest).map (fun l => e :: l)
  | .fatal _ :: _ => none

/-- Is a token one of the seven that no `try_value` alternative accepts
(so that `try_value` fails and rolls it back)? -/
def isStopper : Token → Bool
  | .RParen => true
  | .RBracket => true
  | .RCurly => true
  | .Colon => true
  | .Comma => true
  | _ => false

/-- Is an event one a committed `try_value` alternative can return? -/
def startish : RonEvent → Bool
  | .StructStart _ => true
  | .TupleStart _ => true
  | .MapStart => true
  | .ListStart => true
  | .Primitive _ => true
  | .OptionalSomeValue => true
  | _ => false

/-- Is a token one `try_primitive` turns into a `Primitive` event? -/
def isPrimTok : Token → Bool
  | .Ident _ _ => true
  | .Bool _ => true
  | .Float _ => true
  | .Int _ => true
  | .Char _ => true
  | .Str _ _ => true
  | .NoneOptValue => true
  | _ => false

/-- `Token::Ident` recogniser. -/
def isIdentTok : Token → Bool
  | .Ident _ _ => true
  | _ => false

/-- The primitive a single token stands for, if any (the mapping of
`try_primitive`, with spans resolved against `src`). -/
def tokenPrim (src : List Char) : Token → Option RonPrimitive
  | .Ident a b => some (.Enum (sliceBytes src a b))
  | .Bool x => some (.Bool x)
  | .Float x => some (.Float x)
  | .Int x => some (.Int x)
  | .Char x => some (.Char x)
  | .Str a b => some (.Str (sliceBytes src a b))
  | .NoneOptValue => some .NoneOptValue
  | _ => none

/-! Support lemmas about the token stream and pushback. -/

/-- Popping a pushed-back token returns it and restores the state. -/
theorem nextToken_pushFront (t : Token) (d : RonDeserializer) :
    (pushFront t d).nextToken = .ok (some t) d := rfl

/-- An exhausted lexer keeps reporting end of input. -/
theorem lexer_nextToken_drained (src : List Char) :
    Lexer.nextToken ⟨src, [], none⟩ = .eof := rfl

/-- `next_token` never touches the context stack. -/
theorem nextToken_stack {d d1 : RonDeserializer} {t : Option Token}
    (h : d.nextToken = .ok t d1) : d1.stack = d.stack := by
  unfold RonDeserializer.nextToken at h
  split at h
  · cases h; rfl
  · split at h <;> (try cases h) <;> simp_all

/-- After `next_token` reports end of input, the state is fully drained. -/
theorem nextToken_none_shape {d d1 : RonDeserializer} (h : d.nextToken = .ok none d1) :
    d1 = ⟨⟨d.lexer.src, [], none⟩, [], d.stack⟩ := by
  unfold RonDeserializer.nextToken at h
  split at h
  · simp at h
  · split at h <;> simp_all

/-- End of input is a stable observation of `next_token`. -/
theorem nextToken_none_stable {d d1 : RonDeserializer} (h : d.nextToken = .ok none d1) :
    d1.nextToken = .ok none d1 := by
  rw [nextToken_none_shape h]
  rfl

/-- Pushing back a token that was just consumed preserves the observable
token stream (composable through further restored suffixes). -/
theorem takeTokens_push {d d1 X : RonDeserializer} {t : Token}
    (h : d.nextToken = .ok (some t) d1)
    (hX : ∀ n, takeTokens n X = takeTokens n d1) :
    ∀ n, takeTokens n (pushFront t X) = takeTokens n d
  | 0 => rfl
  | n + 1 => by
    simp only [takeTokens, nextToken_pushFront, h, hX n]

/-- A state that only observed end of input streams like the original. -/
theorem takeTokens_eof {d d1 X : RonDeserializer}
    (h : d.nextToken = .ok none d1)
    (hX : ∀ n, takeTokens n X = takeTokens n d1) :
    ∀ n, takeTokens n X = takeTokens n d
  | 0 => by rw [hX 0]; rfl
  | n + 1 => by
    rw [hX (n + 1)]
    simp only [takeTokens, nextToken_none_stable h, h]

/-! Rollback: a failed speculative alternative restores the token stream
and leaves the context stack untouched. -/

/-- Rollback of a failed `try_list`. -/
theorem tryList_rollback {d d' : RonDeserializer} (h : d.tryList = .ok none d') :
    d'.stack = d.stack ∧ ∀ n, takeTokens n d' = takeTokens n d := by
  unfold RonDeserializer.tryList at h
  split at h
  · simp at h
  · rename_i d1 heq
    have hst := nextToken_stack heq
    have hstr := takeTokens_eof heq (fun n => rfl)
    injection h with _ h2
    subst h2
    exact ⟨hst, hstr⟩
  · rename_i tok d1 heq
    have hst := nextToken_stack heq
    have hstr := takeTokens_push heq (fun n => rfl)
    split at h
    · simp at h
    · injection h with _ h2
      subst h2
      exact ⟨hst, hstr⟩

/-- Rollback of a failed `try_map`. -/
theorem tryMap_rollback {d d' : RonDeserializer} (h : d.tryMap = .ok none d') :
    d'.stack = d.stack ∧ ∀ n, takeTokens n d' = takeTokens n d := by
  unfold RonDeserializer.tryMap at h
  split at h
  · simp at h
  · rename_i d1 heq
    have hst := nextToken_stack heq
    have hstr := takeTokens_eof heq (fun n => rfl)
    injection h with _ h2
    subst h2
    exact ⟨hst, hstr⟩
  · rename_i tok d1 heq
    have hst := nextToken_stack heq
    have hstr := takeTokens_push heq (fun n => rfl)
    split at h
    · simp at h
    · injection h with _ h2
      subst h2
      exact ⟨hst, hstr⟩

/-- Rollback of a failed `try_primitive`. -/
theorem tryPrimitive_rollback {d d' : RonDeserializer} (h : d.tryPrimitive = .ok none d') :
    d'.stack = d.stack ∧ ∀ n, takeTokens n d' = takeTokens n d := by
  unfold RonDeserializer.tryPrimitive at h
  split at h
  · simp at h
  · rename_i d1 heq
    have hst := nextToken_stack heq
    have hstr := takeTokens_eof heq (fun n => rfl)
    injection h with _ h2
    subst h2
    exact ⟨hst, hstr⟩
  · rename_i tok d1 heq
    have hst := nextToken_stack heq
    have hstr := takeTokens_push heq (fun n => rfl)
    split at h
    all_goals try simp at h
    all_goals subst h
    all_goals exact ⟨hst, hstr⟩

/-- Rollback of a failed `try_optional_some`. -/
theorem tryOptionalSome_rollback {d d' : RonDeserializer}
    (h : d.tryOptionalSome = .ok none d') :
    d'.stack = d.stack ∧ ∀ n, takeTokens n d' = takeTokens n d := by
  unfold RonDeserializer.tryOptionalSome at h
  split at h
  · simp at h
  · rename_i d1 heq
    have hst := nextToken_stack heq
    have hstr := takeTokens_eof heq (fun n => rfl)
    injection h with _ h2
    subst h2
    exact ⟨hst, hstr⟩
  · rename_i tok d1 heq
    have hst := nextToken_stack heq
    have hstr := takeTokens_push heq (fun n => rfl)
    split at h
    · split at h <;> simp at h
    · injection h with _ h2
      subst h2
      exact ⟨hst, hstr⟩

/-- Rollback of a failed `try_tuple`. -/
theorem tryTuple_rollback {d d' : RonDeserializer} (h : d.tryTuple = .ok none d') :
    d'.stack = d.stack ∧ ∀ n, takeTokens n d' = takeTokens n d := by
  unfold RonDeserializer.tryTuple at h
  split at h
  · simp at h
  · rename_i d1 heq
    have hst := nextToken_stack heq
    have hstr := takeTokens_eof heq (fun n => rfl)
    injection h with _ h2
    subst h2
    exact ⟨hst, hstr⟩
  · rename_i identTok d1 heq
    have hst1 := nextToken_stack heq
    cases identTok
    case Ident a b =>
      dsimp only at h
      split at h
      · simp at h
      · rename_i d3 heq2
        have hst2 := (nextToken_stack heq2).trans hst1
        have hstr := takeTokens_push heq (takeTokens_eof heq2 (fun n => rfl))
        dsimp only [restoreIdent] at h
        injection h with _ h2
        subst h2
        exact ⟨hst2, hstr⟩
      · rename_i tok d3 heq2
        have hst2 := (nextToken_stack heq2).trans hst1
        have hstr := takeTokens_push heq (takeTokens_push heq2 (fun n => rfl))
        split at h
        · simp at h
        · dsimp only [restoreIdent] at h
          injection h with _ h2
          subst h2
          exact ⟨hst2, hstr⟩
    all_goals dsimp only at h
    all_goals rw [nextToken_pushFront] at h
    all_goals dsimp only [restoreIdent] at h
    all_goals simp at h
    all_goals subst h
    all_goals exact ⟨hst1, takeTokens_push heq (fun n => rfl)⟩

/-- Rollback of a failed `try_struct`. -/
theorem tryStruct_rollback {d d' : RonDeserializer} (h : d.tryStruct = .ok none d') :
    d'.stack = d.stack ∧ ∀ n, takeTokens n d' = takeTokens n d := by
  unfold RonDeserializer.tryStruct at h
  split at h
  · simp at h
  · rename_i d1 heq
    have hst := nextToken_stack heq
    have hstr := takeTokens_eof heq (fun n => rfl)
    injection h with _ h2
    subst h2
    exact ⟨hst, hstr⟩
  · rename_i identTok d1 heq
    have hst1 := nextToken_stack heq
    cases identTok
    case Ident a b =>
      dsimp only at h
      split at h
      · simp at h
      · rename_i d3 heq2
        have hst2 := (nextToken_stack heq2).trans hst1
        have hstr := takeTokens_push heq (takeTokens_eof heq2 (fun n => rfl))
        dsimp only [restoreIdent] at h
        injection h with _ h2
        subst h2
        exact ⟨hst2, hstr⟩
      · rename_i parenTok d3 heq2
        have hst2 := (nextToken_stack heq2).trans hst1
        split at h
        case _ =>
          -- parenTok = LParen: look for the field identifier
          split at h
          · simp at h
          · rename_i d4 heq3
            have hst3 := (nextToken_stack heq3).trans hst2
            have hstr := takeTokens_push heq
              (takeTokens_push heq2 (takeTokens_eof heq3 (fun n => rfl)))
            dsimp only [restoreIdent] at h
            injection h with _ h2
            subst h2
            exact ⟨hst3, hstr⟩
          · rename_i fieldTok d4 heq3
            have hst3 := (nextToken_stack heq3).trans hst2
            split at h
            case _ =>
              -- fieldTok is an identifier: look for the colon
              split at h
              · simp at h
              · rename_i d5 heq4
                have hst4 := (nextToken_stack heq4).trans hst3
                have hstr := takeTokens_push heq (takeTokens_push heq2
                  (takeTokens_push heq3 (takeTokens_eof heq4 (fun n => rfl))))
                dsimp only [restoreIdent] at h
                injection h with _ h2
                subst h2
                exact ⟨hst4, hstr⟩
              · rename_i colonTok d5 heq4
                have hst4 := (nextToken_stack heq4).trans hst3
                have hstr := takeTokens_push heq (takeTokens_push heq2
                  (takeTokens_push heq3 (takeTokens_push heq4 (fun n => rfl))))
                split at h
                · simp at h
                · dsimp only [restoreIdent] at h
                  injection h with _ h2
                  subst h2
                  exact ⟨hst4, hstr⟩
            case _ =>
              -- fieldTok is not an identifier
              have hstr := takeTokens_push heq
                (takeTokens_push heq2 (takeTokens_push heq3 (fun n => rfl)))
              dsimp only [restoreIdent] at h
              injection h with _ h2
              subst h2
              exact ⟨hst3, hstr⟩
        case _ =>
          -- parenTok is not a left parenthesis
          have hstr := takeTokens_push heq (takeTokens_push heq2 (fun n => rfl))
          dsimp only [restoreIdent] at h
          injection h with _ h2
          subst h2
          exact ⟨hst2, hstr⟩
    case LParen =>
      dsimp only at h
      rw [nextToken_pushFront] at h
      dsimp only at h
      split at h
      · simp at h
      · rename_i d4 heq3
        have hst3 := (nextToken_stack heq3).trans hst1
        have hstr := takeTokens_push heq (takeTokens_eof heq3 (fun n => rfl))
        dsimp only [restoreIdent] at h
        injection h with _ h2
        subst h2
        exact ⟨hst3, hstr⟩
      · rename_i fieldTok d4 heq3
        have hst3 := (nextToken_stack heq3).trans hst1
        split at h
        case _ =>
          split at h
          · simp at h
          · rename_i d5 heq4
            have hst4 := (nextToken_stack heq4).trans hst3
            have hstr := takeTokens_push heq
              (takeTokens_push heq3 (takeTokens_eof heq4 (fun n => rfl)))
            dsimp only [restoreIdent] at h
            injection h with _ h2
            subst h2
            exact ⟨hst4, hstr⟩
          · rename_i colonTok d5 heq4
            have hst4 := (nextToken_stack heq4).trans hst3
            have hstr := takeTokens_push heq
              (takeTokens_push heq3 (takeTokens_push heq4 (fun n => rfl)))
            split at h
            · simp at h
            · dsimp only [restoreIdent] at h
              injection h with _ h2
              subst h2
              exact ⟨hst4, hstr⟩
        case _ =>
          have hstr := takeTokens_push heq (takeTokens_push heq3 (fun n => rfl))
          dsimp only [restoreIdent] at h
          injection h with _ h2
          subst h2
          exact ⟨hst3, hstr⟩
    all_goals dsimp only at h
    all_goals rw [nextToken_pushFront] at h
    all_goals dsimp only [restoreIdent] at h
    all_goals simp at h
    all_goals subst h
    all_goals exact ⟨hst1, takeTokens_push heq (fun n => rfl)⟩

/-! Commit shapes: what a successful alternative can return. -/

/-- A committed `try_struct` returns a `StructStart`. -/
theorem tryStruct_commit {d d' : RonDeserializer} {e : RonEvent}
    (h : d.tryStruct = .ok (some e) d') : ∃ n, e = .StructStart n := by
  unfold RonDeserializer.tryStruct at h
  repeat'
    first
      | dsimp only at h
      | split at h
  all_goals cases h
  all_goals exact ⟨_, rfl⟩

/-- A committed `try_tuple` returns a `TupleStart`. -/
theorem tryTuple_commit {d d' : RonDeserializer} {e : RonEvent}
    (h : d.tryTuple = .ok (some e) d') : ∃ n, e = .TupleStart n := by
  unfold RonDeserializer.tryTuple at h
  repeat'
    first
      | dsimp only at h
      | split at h
  all_goals cases h
  all_goals exact ⟨_, rfl⟩

/-- A committed `try_primitive` returns a `Primitive`. -/
theorem tryPrimitive_commit {d d' : RonDeserializer} {e : RonEvent}
    (h : d.tryPrimitive = .ok (some e) d') : ∃ p, e = .Primitive p := by
  unfold RonDeserializer.tryPrimitive at h
  repeat'
    first
      | dsimp only at h
      | split at h
  all_goals cases h
  all_goals exact ⟨_, rfl⟩

/-- A committed `try_optional_some` returns the `OptionalSomeValue` marker. -/
theorem tryOptionalSome_commit {d d' : RonDeserializer} {e : RonEvent}
    (h : d.tryOptionalSome = .ok (some e) d') : e = .OptionalSomeValue := by
  unfold RonDeserializer.tryOptionalSome at h
  repeat'
    first
      | dsimp only at h
      | split at h
  all_goals cases h
  all_goals rfl

/-- A committed `try_map` returns `MapStart`. -/
theorem tryMap_commit {d d' : RonDeserializer} {e : RonEvent}
    (h : d.tryMap = .ok (some e) d') : e = .MapStart := by
  unfold RonDeserializer.tryMap at h
  repeat'
    first
      | dsimp only at h
      | split at h
  all_goals cases h
  all_goals rfl

/-- A committed `try_list` returns `ListStart`. -/
theorem tryList_commit {d d' : RonDeserializer} {e : RonEvent}
    (h : d.tryList = .ok (some e) d') : e = .ListStart := by
  unfold RonDeserializer.tryList at h
  repeat'
    first
      | dsimp only at h
      | split at h
  all_goals cases h
  all_goals rfl

/-- Every event a committed `try_value` returns is the start of a value:
a `*Start`, a `Primitive`, or the optional marker — never an end event,
a `NamedField`, or `Eof`. -/
theorem tryValue_startish {d d' : RonDeserializer} {e : RonEvent}
    (h : d.tryValue = .ok (some e) d') : startish e = true := by
  unfold RonDeserializer.tryValue at h
  split at h
  · simp at h
  · rename_i x d1 heq
    injection h with h1 h2
    injection h1 with h1
    subst h1
    obtain ⟨n, hn⟩ := tryStruct_commit heq
    subst hn
    rfl
  · split at h
    · simp at h
    · rename_i x d2 heq
      injection h with h1 h2
      injection h1 with h1
      subst h1
      obtain ⟨n, hn⟩ := tryTuple_commit heq
      subst hn
      rfl
    · split at h
      · simp at h
      · rename_i x d3 heq
        injection h with h1 h2
        injection h1 with h1
        subst h1
        obtain ⟨p, hp⟩ := tryPrimitive_commit heq
        subst hp
        rfl
      · split at h
        · simp at h
        · rename_i x d4 heq
          injection h with h1 h2
          injection h1 with h1
          subst h1
          rw [tryOptionalSome_commit heq]
          rfl
        · split at h
          · simp at h
          · rename_i x d5 heq
            injection h with h1 h2
            injection h1 with h1
            subst h1
            rw [tryMap_commit heq]
            rfl
          · rw [tryList_commit h]
            rfl

/-- Rollback of a failed `try_value`: the stack and the observable token
stream are unchanged. -/
theorem tryValue_rollback {d d' : RonDeserializer} (h : d.tryValue = .ok none d') :
    d'.stack = d.stack ∧ ∀ n, takeTokens n d' = takeTokens n d := by
  unfold RonDeserializer.tryValue at h
  split at h
  · simp at h
  · simp at h
  · rename_i d1 heq1
    obtain ⟨s1, t1⟩ := tryStruct_rollback heq1
    split at h
    · simp at h
    · simp at h
    · rename_i d2 heq2
      obtain ⟨s2, t2⟩ := tryTuple_rollback heq2
      split at h
      · simp at h
      · simp at h
      · rename_i d3 heq3
        obtain ⟨s3, t3⟩ := tryPrimitive_rollback heq3
        split at h
        · simp at h
        · simp at h
        · rename_i d4 heq4
          obtain ⟨s4, t4⟩ := tryOptionalSome_rollback heq4
          split at h
          · simp at h
          · simp at h
          · rename_i d5 heq5
            obtain ⟨s5, t5⟩ := tryMap_rollback heq5
            obtain ⟨s6, t6⟩ := tryList_rollback h
            refine ⟨?_, fun n => ?_⟩
            · exact s6.trans (s5.trans (s4.trans (s3.trans (s2.trans s1))))
            · exact ((((((t6 n).trans (t5 n)).trans (t4 n)).trans (t3 n)).trans
                (t2 n)).trans (t1 n))

/-! First-token views of `try_value`, used for the terminal-state claims. -/

/-- A lexer panic inside `next_token` propagates through `try_value`. -/
theorem tryValue_fatal {d : RonDeserializer} {m : String}
    (h : d.nextToken = .fatal m) : d.tryValue = .fatal m := by
  have hs : d.tryStruct = .fatal m := by
    unfold RonDeserializer.tryStruct
    rw [h]
  unfold RonDeserializer.tryValue
  rw [hs]

/-- `try_struct` only looks at the state through `next_token`. -/
theorem tryStruct_norm {d d1 : RonDeserializer} {t : Token}
    (h : d.nextToken = .ok (some t) d1) :
    d.tryStruct = (pushFront t d1).tryStruct := by
  unfold RonDeserializer.tryStruct
  rw [h, nextToken_pushFront]

/-- `try_value` only looks at the state through `next_token`. -/
theorem tryValue_norm {d d1 : RonDeserializer} {t : Token}
    (h : d.nextToken = .ok (some t) d1) :
    d.tryValue = (pushFront t d1).tryValue := by
  unfold RonDeserializer.tryValue
  rw [tryStruct_norm h]

/-- At end of input, `try_struct` behaves as on the drained state. -/
theorem tryStruct_norm0 {d d1 : RonDeserializer}
    (h : d.nextToken = .ok none d1) :
    d.tryStruct = d1.tryStruct := by
  unfold RonDeserializer.tryStruct
  rw [h, nextToken_none_stable h]

/-- At end of input, `try_value` behaves as on the drained state. -/
theorem tryValue_norm0 {d d1 : RonDeserializer}
    (h : d.nextToken = .ok none d1) :
    d.tryValue = d1.tryValue := by
  unfold RonDeserializer.tryValue
  rw [tryStruct_norm0 h]

/-- On a stopper token (a closing delimiter, `:` or `,`), `try_value`
fails and restores the state exactly. -/
theorem stopper_tryValue {lx : Lexer} {q : List Token} {s : List InternalState} {t : Token}
    (ht : isStopper t = true) :
    RonDeserializer.tryValue ⟨lx, t :: q, s⟩ = .ok none ⟨lx, t :: q, s⟩ := by
  cases t <;> first | rfl | simp [isStopper] at ht

/-- On a drained state, `try_value` fails and changes nothing. -/
theorem drained_tryValue (src : List Char) (s : List InternalState) :
    RonDeserializer.tryValue ⟨⟨src, [], none⟩, [], s⟩ =
      .ok none ⟨⟨src, [], none⟩, [], s⟩ := rfl

/-- Transfer the first observed token across stream equality. -/
theorem takeTokens_first {A B : RonDeserializer} {t : Token} {d1 : RonDeserializer}
    (hstr : ∀ n, takeTokens n A = takeTokens n B)
    (h : B.nextToken = .ok (some t) d1) :
    ∃ dz, A.nextToken = .ok (some t) dz := by
  have h1 := hstr 1
  simp only [takeTokens, h] at h1
  cases hA : A.nextToken with
  | fatal m => rw [hA] at h1; simp at h1
  | ok tA dA =>
    rw [hA] at h1
    simp at h1
    subst h1
    exact ⟨dA, rfl⟩

/-- A failed `try_primitive` did not see a primitive token. -/
theorem tryPrimitive_fail_tok {d d' d1 : RonDeserializer} {t : Token}
    (h : d.tryPrimitive = .ok none d') (h1 : d.nextToken = .ok (some t) d1) :
    isPrimTok t = false := by
  unfold RonDeserializer.tryPrimitive at h
  rw [h1] at h
  cases t <;> simp_all [isPrimTok]

/-- A failed `try_tuple` did not see a left parenthesis first. -/
theorem tryTuple_fail_tok {d d' d1 : RonDeserializer} {t : Token}
    (h : d.tryTuple = .ok none d') (h1 : d.nextToken = .ok (some t) d1) :
    t ≠ .LParen := by
  intro he
  subst he
  unfold RonDeserializer.tryTuple at h
  rw [h1] at h
  dsimp only at h
  rw [nextToken_pushFront] at h
  dsimp only at h
  cases h

/-- A failed `try_optional_some` did not see the `Some` marker first. -/
theorem tryOptionalSome_fail_tok {d d' d1 : RonDeserializer} {t : Token}
    (h : d.tryOptionalSome = .ok none d') (h1 : d.nextToken = .ok (some t) d1) :
    t ≠ .SomeOptValue := by
  intro he
  subst he
  unfold RonDeserializer.tryOptionalSome at h
  rw [h1] at h
  dsimp only at h
  split at h <;> simp_all

/-- A failed `try_map` did not see a left curly brace first. -/
theorem tryMap_fail_tok {d d' d1 : RonDeserializer} {t : Token}
    (h : d.tryMap = .ok none d') (h1 : d.nextToken = .ok (some t) d1) :
    t ≠ .LCurly := by
  intro he
  subst he
  unfold RonDeserializer.tryMap at h
  rw [h1] at h
  cases h

/-- A failed `try_list` did not see a left bracket first. -/
theorem tryList_fail_tok {d d' d1 : RonDeserializer} {t : Token}
    (h : d.tryList = .ok none d') (h1 : d.nextToken = .ok (some t) d1) :
    t ≠ .LBracket := by
  intro he
  subst he
  unfold RonDeserializer.tryList at h
  rw [h1] at h
  cases h

/-- When `try_value` fails, the state's next token was end of input or one
of the five stopper tokens. -/
theorem tryValue_none_first {d d' : RonDeserializer} (h : d.tryValue = .ok none d') :
    (∃ d1, d.nextToken = .ok none d1) ∨
    (∃ t d1, d.nextToken = .ok (some t) d1 ∧ isStopper t = true) := by
  cases h0 : d.nextToken with
  | fatal m => rw [tryValue_fatal h0] at h; cases h
  | ok t0 dz =>
    cases t0 with
    | none => exact Or.inl ⟨dz, rfl⟩
    | some t =>
      refine Or.inr ⟨t, dz, rfl, ?_⟩
      unfold RonDeserializer.tryValue at h
      split at h
      · simp at h
      · simp at h
      · rename_i dA heqA
        obtain ⟨_, strA⟩ := tryStruct_rollback heqA
        split at h
        · simp at h
        · simp at h
        · rename_i dB heqB
          obtain ⟨_, strB⟩ := tryTuple_rollback heqB
          split at h
          · simp at h
          · simp at h
          · rename_i dC heqC
            obtain ⟨_, strC⟩ := tryPrimitive_rollback heqC
            split at h
            · simp at h
            · simp at h
            · rename_i dD heqD
              obtain ⟨_, strD⟩ := tryOptionalSome_rollback heqD
              split at h
              · simp at h
              · simp at h
              · rename_i dE heqE
                obtain ⟨_, strE⟩ := tryMap_rollback heqE
                obtain ⟨tA, htA⟩ := takeTokens_first strA h0
                obtain ⟨tB, htB⟩ := takeTokens_first (fun n => (strB n).trans (strA n)) h0
                obtain ⟨tC, htC⟩ := takeTokens_first
                  (fun n => ((strC n).trans (strB n)).trans (strA n)) h0
                obtain ⟨tD, htD⟩ := takeTokens_first
                  (fun n => (((strD n).trans (strC n)).trans (strB n)).trans (strA n)) h0
                obtain ⟨tE, htE⟩ := takeTokens_first
                  (fun n => ((((strE n).trans (strD n)).trans (strC n)).trans
                    (strB n)).trans (strA n)) h0
                have hTup := tryTuple_fail_tok heqB htA
                have hPrim := tryPrimitive_fail_tok heqC htB
                have hSome := tryOptionalSome_fail_tok heqD htC
                have hMap := tryMap_fail_tok heqE htD
                have hList := tryList_fail_tok h htE
                cases t <;> simp_all [isPrimTok, isStopper]

/-- A failed `try_value` leaves a state on which `try_value` keeps failing
without further change: the failure state is absorbing. -/
theorem tryValue_absorb {d d' : RonDeserializer} (h : d.tryValue = .ok none d') :
    d'.tryValue = .ok none d' := by
  rcases tryValue_none_first h with ⟨d1, h0⟩ | ⟨t, d1, h0, hstop⟩
  · rw [tryValue_norm0 h0, nextToken_none_shape h0, drained_tryValue] at h
    injection h with _ h2
    subst h2
    exact drained_tryValue _ _
  · rw [tryValue_norm h0] at h
    simp only [pushFront] at h
    rw [stopper_tryValue hstop] at h
    injection h with _ h2
    subst h2
    exact stopper_tryValue hstop

/-! The shape of every event `next_event` can return, relative to the
context stack it was called on. -/

/-- Events coming out of a committed `try_value` satisfy all the end-event
and `Eof` obligations vacuously. -/
theorem tryValue_conj {X dv : RonDeserializer} {v : RonEvent}
    (heq : X.tryValue = .ok (some v) dv) (s0 : List InternalState) (d' : RonDeserializer) :
    (v = .MapEnd → ∃ k rest,
      s0 = List.replicate k .EndedOptionalSomeValue ++ .Map :: rest ∧ d'.stack = rest) ∧
    (v = .ListEnd → ∃ k rest,
      s0 = List.replicate k .EndedOptionalSomeValue ++ .List :: rest ∧ d'.stack = rest) ∧
    (∀ nm, v = .TupleEnd nm → ∃ k rest,
      s0 = List.replicate k .EndedOptionalSomeValue ++ .Tuple nm :: rest ∧ d'.stack = rest) ∧
    (∀ nm, v = .StructEnd nm → ∃ k rest,
      s0 = List.replicate k .EndedOptionalSomeValue ++ .Struct nm :: rest ∧ d'.stack = rest) ∧
    (v = .Eof → d'.stack = [] ∧ ∃ lz qz,
      RonDeserializer.tryValue ⟨lz, qz, []⟩ = .ok none d') := by
  have hs := tryValue_startish heq
  refine ⟨fun he => ?_, fun he => ?_, fun nm he => ?_, fun nm he => ?_, fun he => ?_⟩ <;>
    (subst he; simp [startish] at hs)

/-- The obligations of the shape lemma when the returned event is `MapEnd`
with the `Map` frame on top. -/
theorem mapEnd_conj {d' : RonDeserializer} {tl : List InternalState} (h : d'.stack = tl) :
    (RonEvent.MapEnd = RonEvent.MapEnd → ∃ k rest, InternalState.Map :: tl =
      List.replicate k InternalState.EndedOptionalSomeValue ++ InternalState.Map :: rest ∧
      d'.stack = rest) ∧
    (RonEvent.MapEnd = RonEvent.ListEnd → ∃ k rest, InternalState.Map :: tl =
      List.replicate k InternalState.EndedOptionalSomeValue ++ InternalState.List :: rest ∧
      d'.stack = rest) ∧
    (∀ nm, RonEvent.MapEnd = RonEvent.TupleEnd nm → ∃ k rest, InternalState.Map :: tl =
      List.replicate k InternalState.EndedOptionalSomeValue ++ InternalState.Tuple nm :: rest ∧
      d'.stack = rest) ∧
    (∀ nm, RonEvent.MapEnd = RonEvent.StructEnd nm → ∃ k rest, InternalState.Map :: tl =
      List.replicate k InternalState.EndedOptionalSomeValue ++ InternalState.Struct nm :: rest ∧
      d'.stack = rest) ∧
    (RonEvent.MapEnd = RonEvent.Eof → d'.stack = [] ∧ ∃ lz qz,
      RonDeserializer.tryValue ⟨lz, qz, []⟩ = .ok none d') := by
  refine ⟨fun _ => ⟨0, tl, rfl, h⟩, fun he => ?_, fun nm he => ?_, fun nm he => ?_,
    fun he => ?_⟩ <;> cases he

/-- The obligations of the shape lemma when the returned event is `ListEnd`
with the `List` frame on top. -/
theorem listEnd_conj {d' : RonDeserializer} {tl : List InternalState} (h : d'.stack = tl) :
    (RonEvent.ListEnd = RonEvent.MapEnd → ∃ k rest, InternalState.List :: tl =
      List.replicate k InternalState.EndedOptionalSomeValue ++ InternalState.Map :: rest ∧
      d'.stack = rest) ∧
    (RonEvent.ListEnd = RonEvent.ListEnd → ∃ k rest, InternalState.List :: tl =
      List.replicate k InternalState.EndedOptionalSomeValue ++ InternalState.List :: rest ∧
      d'.stack = rest) ∧
    (∀ nm, RonEvent.ListEnd = RonEvent.TupleEnd nm → ∃ k rest, InternalState.List :: tl =
      List.replicate k InternalState.EndedOptionalSomeValue ++ InternalState.Tuple nm :: rest ∧
      d'.stack = rest) ∧
    (∀ nm, RonEvent.ListEnd = RonEvent.StructEnd nm → ∃ k rest, InternalState.List :: tl =
      List.replicate k InternalState.EndedOptionalSomeValue ++ InternalState.Struct nm :: rest ∧
      d'.stack = rest) ∧
    (RonEvent.ListEnd = RonEvent.Eof → d'.stack = [] ∧ ∃ lz qz,
      RonDeserializer.tryValue ⟨lz, qz, []⟩ = .ok none d') := by
  refine ⟨fun he => ?_, fun _ => ⟨0, tl, rfl, h⟩, fun nm he => ?_, fun nm he => ?_,
    fun he => ?_⟩ <;> cases he

/-- The obligations of the shape lemma when the returned event is
`TupleEnd name` with the `Tuple name` frame on top. -/
theorem tupleEnd_conj {d' : RonDeserializer} {tl : List InternalState}
    {name : Option (List Char)} (h : d'.stack = tl) :
    (RonEvent.TupleEnd name = RonEvent.MapEnd → ∃ k rest, InternalState.Tuple name :: tl =
      List.replicate k InternalState.EndedOptionalSomeValue ++ InternalState.Map :: rest ∧
      d'.stack = rest) ∧
    (RonEvent.TupleEnd name = RonEvent.ListEnd → ∃ k rest, InternalState.Tuple name :: tl =
      List.replicate k InternalState.EndedOptionalSomeValue ++ InternalState.List :: rest ∧
      d'.stack = rest) ∧
    (∀ nm, RonEvent.TupleEnd name = RonEvent.TupleEnd nm → ∃ k rest,
      InternalState.Tuple name :: tl =
      List.replicate k InternalState.EndedOptionalSomeValue ++ InternalState.Tuple nm :: rest ∧
      d'.stack = rest) ∧
    (∀ nm, RonEvent.TupleEnd name = RonEvent.StructEnd nm → ∃ k rest,
      InternalState.Tuple name :: tl =
      List.replicate k InternalState.EndedOptionalSomeValue ++ InternalState.Struct nm :: rest ∧
      d'.stack = rest) ∧
    (RonEvent.TupleEnd name = RonEvent.Eof → d'.stack = [] ∧ ∃ lz qz,
      RonDeserializer.tryValue ⟨lz, qz, []⟩ = .ok none d') := by
  refine ⟨fun he => ?_, fun he => ?_, fun nm he => ?_, fun nm he => ?_, fun he => ?_⟩
  · cases he
  · cases he
  · injection he with he2
    subst he2
    exact ⟨0, tl, rfl, h⟩
  · cases he
  · cases he

/-- The obligations of the shape lemma when the returned event is
`StructEnd name` with the `Struct name` frame on top. -/
theorem structEnd_conj {d' : RonDeserializer} {tl : List InternalState}
    {name : Option (List Char)} (h : d'.stack = tl) :
    (RonEvent.StructEnd name = RonEvent.MapEnd → ∃ k rest, InternalState.Struct name :: tl =
      List.replicate k InternalState.EndedOptionalSomeValue ++ InternalState.Map :: rest ∧
      d'.stack = rest) ∧
    (RonEvent.StructEnd name = RonEvent.ListEnd → ∃ k rest, InternalState.Struct name :: tl =
      List.replicate k InternalState.EndedOptionalSomeValue ++ InternalState.List :: rest ∧
      d'.stack = rest) ∧
    (∀ nm, RonEvent.StructEnd name = RonEvent.TupleEnd nm → ∃ k rest,
      InternalState.Struct name :: tl =
      List.replicate k InternalState.EndedOptionalSomeValue ++ InternalState.Tuple nm :: rest ∧
      d'.stack = rest) ∧
    (∀ nm, RonEvent.StructEnd name = RonEvent.StructEnd nm → ∃ k rest,
      InternalState.Struct name :: tl =
      List.replicate k InternalState.EndedOptionalSomeValue ++ InternalState.Struct nm :: rest ∧
      d'.stack = rest) ∧
    (RonEvent.StructEnd name = RonEvent.Eof → d'.stack = [] ∧ ∃ lz qz,
      RonDeserializer.tryValue ⟨lz, qz, []⟩ = .ok none d') := by
  refine ⟨fun he => ?_, fun he => ?_, fun nm he => ?_, fun nm he => ?_, fun he => ?_⟩
  · cases he
  · cases he
  · cases he
  · injection he with he2
    subst he2
    exact ⟨0, tl, rfl, h⟩
  · cases he

/-- The obligations of the shape lemma when the returned event is a
`NamedField`: all vacuous. -/
theorem namedField_conj {d' : RonDeserializer} {s0 : List InternalState} {x : List Char} :
    (RonEvent.NamedField x = RonEvent.MapEnd → ∃ k rest, s0 =
      List.replicate k InternalState.EndedOptionalSomeValue ++ InternalState.Map :: rest ∧
      d'.stack = rest) ∧
    (RonEvent.NamedField x = RonEvent.ListEnd → ∃ k rest, s0 =
      List.replicate k InternalState.EndedOptionalSomeValue ++ InternalState.List :: rest ∧
      d'.stack = rest) ∧
    (∀ nm, RonEvent.NamedField x = RonEvent.TupleEnd nm → ∃ k rest, s0 =
      List.replicate k InternalState.EndedOptionalSomeValue ++ InternalState.Tuple nm :: rest ∧
      d'.stack = rest) ∧
    (∀ nm, RonEvent.NamedField x = RonEvent.StructEnd nm → ∃ k rest, s0 =
      List.replicate k InternalState.EndedOptionalSomeValue ++ InternalState.Struct nm :: rest ∧
      d'.stack = rest) ∧
    (RonEvent.NamedField x = RonEvent.Eof → d'.stack = [] ∧ ∃ lz qz,
      RonDeserializer.tryValue ⟨lz, qz, []⟩ = .ok none d') := by
  refine ⟨fun he => ?_, fun he => ?_, fun nm he => ?_, fun nm he => ?_, fun he => ?_⟩ <;>
    cases he

/-- The obligations of the shape lemma when `Eof` is returned from the
empty stack. -/
theorem eofRet_conj (s0 : List InternalState) {lx : Lexer} {q : List Token}
    {d1 : RonDeserializer}
    (heq : RonDeserializer.tryValue ⟨lx, q, []⟩ = .ok none d1) :
    (RonEvent.Eof = RonEvent.MapEnd → ∃ k rest, s0 =
      List.replicate k InternalState.EndedOptionalSomeValue ++ InternalState.Map :: rest ∧
      d1.stack = rest) ∧
    (RonEvent.Eof = RonEvent.ListEnd → ∃ k rest, s0 =
      List.replicate k InternalState.EndedOptionalSomeValue ++ InternalState.List :: rest ∧
      d1.stack = rest) ∧
    (∀ nm, RonEvent.Eof = RonEvent.TupleEnd nm → ∃ k rest, s0 =
      List.replicate k InternalState.EndedOptionalSomeValue ++ InternalState.Tuple nm :: rest ∧
      d1.stack = rest) ∧
    (∀ nm, RonEvent.Eof = RonEvent.StructEnd nm → ∃ k rest, s0 =
      List.replicate k InternalState.EndedOptionalSomeValue ++ InternalState.Struct nm :: rest ∧
      d1.stack = rest) ∧
    (RonEvent.Eof = RonEvent.Eof → d1.stack = [] ∧ ∃ lz qz,
      RonDeserializer.tryValue ⟨lz, qz, []⟩ = .ok none d1) := by
  refine ⟨fun he => ?_, fun he => ?_, fun nm he => ?_, fun nm he => ?_,
    fun _ => ⟨?_, ⟨lx, q, heq⟩⟩⟩
  · cases he
  · cases he
  · cases he
  · cases he
  · exact (tryValue_rollback heq).1

/-- Master shape lemma for `next_event`: an end event of kind `K` is only
produced when the stack is `K` under a (possibly empty) run of transparent
`EndedOptionalSomeValue` frames, all of which (and the `K` frame) are
popped; and `Eof` is only produced from an empty stack after a failed
`try_value`. -/
theorem nextEventGo_shape (s : List InternalState) :
    ∀ (lx : Lexer) (q : List Token) (e : RonEvent) (d' : RonDeserializer),
    RonDeserializer.nextEventGo lx q s = .ok e d' →
    (e = .MapEnd → ∃ k rest,
      s = List.replicate k .EndedOptionalSomeValue ++ .Map :: rest ∧ d'.stack = rest) ∧
    (e = .ListEnd → ∃ k rest,
      s = List.replicate k .EndedOptionalSomeValue ++ .List :: rest ∧ d'.stack = rest) ∧
    (∀ nm, e = .TupleEnd nm → ∃ k rest,
      s = List.replicate k .EndedOptionalSomeValue ++ .Tuple nm :: rest ∧ d'.stack = rest) ∧
    (∀ nm, e = .StructEnd nm → ∃ k rest,
      s = List.replicate k .EndedOptionalSomeValue ++ .Struct nm :: rest ∧ d'.stack = rest) ∧
    (e = .Eof → d'.stack = [] ∧ ∃ lz qz,
      RonDeserializer.tryValue ⟨lz, qz, []⟩ = .ok none d') := by
  induction s with
  | nil =>
    intro lx q e d' h
    unfold RonDeserializer.nextEventGo at h
    split at h
    · cases h
    · rename_i v d1 heq
      cases h
      exact tryValue_conj heq _ _
    · rename_i d1 heq
      cases h
      exact eofRet_conj _ heq
  | cons hd tl ih =>
    intro lx q e d' h
    cases hd
    case SecondValue =>
      unfold RonDeserializer.nextEventGo at h
      split at h
      · cases h
      · cases h
      · rename_i v d1 heq
        cases h
        exact tryValue_conj heq _ _
    case OptionalSomeValue =>
      unfold RonDeserializer.nextEventGo at h
      split at h
      · cases h
      · cases h
      · rename_i v d1 heq
        cases h
        exact tryValue_conj heq _ _
    case EndedOptionalSomeValue =>
      unfold RonDeserializer.nextEventGo at h
      split at h
      · cases h
      · rename_i d1 heq
        obtain ⟨c1, c2, c3, c4, c5⟩ := ih d1.lexer d1.tok_queue e d' h
        refine ⟨fun he => ?_, fun he => ?_, fun nm he => ?_, fun nm he => ?_, c5⟩
        · obtain ⟨k, rest, hs, hst⟩ := c1 he
          exact ⟨k + 1, rest, by simp [hs, List.replicate_succ], hst⟩
        · obtain ⟨k, rest, hs, hst⟩ := c2 he
          exact ⟨k + 1, rest, by simp [hs, List.replicate_succ], hst⟩
        · obtain ⟨k, rest, hs, hst⟩ := c3 nm he
          exact ⟨k + 1, rest, by simp [hs, List.replicate_succ], hst⟩
        · obtain ⟨k, rest, hs, hst⟩ := c4 nm he
          exact ⟨k + 1, rest, by simp [hs, List.replicate_succ], hst⟩
      · cases h
    case Map =>
      unfold RonDeserializer.nextEventGo at h
      split at h
      · cases h
      · cases h
      · rename_i t d1 heq1
        dsimp only at h
        split at h
        · cases h
        · cases h
        · rename_i t2 d2 heq2
          split at h
          · cases h
            exact mapEnd_conj rfl
          · split at h
            · cases h
            · cases h
            · rename_i key d3 heq3
              split at h
              · cases h
              · cases h
                exact tryValue_conj heq3 _ _
              · cases h
    case List =>
      unfold RonDeserializer.nextEventGo at h
      split at h
      · cases h
      · cases h
      · rename_i t d1 heq1
        dsimp only at h
        split at h
        · cases h
        · cases h
        · rename_i t2 d2 heq2
          split at h
          · cases h
            exact listEnd_conj rfl
          · split at h
            · cases h
            · cases h
            · rename_i v d3 heq3
              cases h
              exact tryValue_conj heq3 _ _
    case Tuple name =>
      unfold RonDeserializer.nextEventGo at h
      split at h
      · cases h
      · cases h
      · rename_i t d1 heq1
        dsimp only at h
        split at h
        · cases h
        · cases h
        · rename_i t2 d2 heq2
          split at h
          · cases h
            exact tupleEnd_conj rfl
          · split at h
            · cases h
            · cases h
            · rename_i v d3 heq3
              cases h
              exact tryValue_conj heq3 _ _
    case Struct name =>
      unfold RonDeserializer.nextEventGo at h
      split at h
      · cases h
      · cases h
      · rename_i t d1 heq1
        dsimp only at h
        split at h
        · cases h
        · cases h
        · rename_i t2 d2 heq2
          split at h
          · cases h
            exact structEnd_conj rfl
          · rw [nextToken_pushFront] at h
            try dsimp only at h
            split at h
            · cases h
            · rename_i a b d3 heq3
              split at h
              · cases h
              · cases h
                exact namedField_conj
              · cases h
            · cases h

/-! Lexer-level lemmas: unterminated strings, number scanning, slices. -/

/-- If no closing quote occurs among the characters, the quote search over
their indices fails. -/
theorem seekQuoteIter_none (xs : List Char) (k : Nat) (h : ∀ c ∈ xs, c ≠ '"') :
    seekQuoteIter (charIndicesFrom k xs) = none := by
  induction xs generalizing k with
  | nil => rfl
  | cons c cs ih =>
    have hc : c ≠ '"' := h c (by simp)
    simp only [charIndicesFrom, seekQuoteIter]
    rw [if_neg hc]
    exact ih _ (fun x hx => h x (by simp [hx]))

/-- A `next_token` call that lands on an opening quote with no closing
quote in the remaining input reports end of input (the `?`-propagated
`None`), not an error. -/
theorem nextToken_unterminated {l : Lexer} {src : List Char} {it : List (Nat × Char)}
    {i : Nat} (hig : l.ignoreWhitespaces = some ⟨src, it, some (i, '"')⟩)
    (hq : seekQuoteIter it = none) :
    l.nextToken = .eof := by
  unfold Lexer.nextToken
  rw [hig]
  cases it with
  | nil => rfl
  | cons p it' =>
    obtain ⟨j, c0⟩ := p
    have hsplit : c0 ≠ '"' ∧ seekQuoteIter it' = none := by
      by_cases hc : c0 = '"'
      · subst hc
        simp [seekQuoteIter] at hq
      · refine ⟨hc, ?_⟩
        simpa [seekQuoteIter, hc] using hq
    obtain ⟨hc0, hq2⟩ := hsplit
    simp [Lexer.nextChar, Lexer.readString, Lexer.seekQuote, hq2, hc0]

/-- A scan whose whole input satisfies the predicate consumes everything
and reports the source byte length. -/
theorem scanWhileIter_all (p : Char → Bool) (srcLen : Nat) (xs : List Char) (k : Nat)
    (h : ∀ x ∈ xs, p x = true) :
    scanWhileIter p srcLen (charIndicesFrom k xs) = (srcLen, none, []) := by
  induction xs generalizing k with
  | nil => rfl
  | cons c cs ih =>
    simp only [charIndicesFrom, scanWhileIter]
    rw [if_pos (h c (by simp))]
    exact ih _ (fun x hx => h x (by simp [hx]))

/-- `byteLen` distributes over cons. -/
theorem byteLen_cons (c : Char) (xs : List Char) :
    byteLen (c :: xs) = c.utf8Size + byteLen xs := by
  simp [byteLen]

/-- Slicing a buffer from byte 0 to its byte length recovers the buffer. -/
theorem sliceBytes_full (src : List Char) : sliceBytes src 0 (byteLen src) = src := by
  have aux : ∀ (xs : List Char) (k b : Nat), k + byteLen xs ≤ b →
      ((charIndicesFrom k xs).filter (fun p => decide (0 ≤ p.1 ∧ p.1 < b))).map Prod.snd
        = xs := by
    intro xs
    induction xs with
    | nil => intro k b _; rfl
    | cons c cs ih =>
      intro k b hb
      rw [byteLen_cons] at hb
      have hcpos := Char.utf8Size_pos c
      have hk : k < b := by omega
      simp only [charIndicesFrom, List.filter_cons]
      rw [if_pos (by simpa using hk)]
      simp only [List.map_cons]
      rw [ih (k + c.utf8Size) b (by omega)]
  exact aux src 0 (byteLen src) (by omega)

/-- Slicing with the empty range `[0, 0)` yields the empty text whatever
the buffer is. -/
theorem sliceBytes_zero (src : List Char) : sliceBytes src 0 0 = [] := by
  have : (charIndices src).filter (fun p => decide (0 ≤ p.1 ∧ p.1 < 0)) = [] := by
    apply List.filter_eq_nil_iff.mpr
    intro a _
    simp
  simp [sliceBytes, this]

/-- Dropping a false-everywhere prefix changes nothing. -/
theorem dropWhile_all_false (p : Char → Bool) (l : List Char)
    (h : ∀ c ∈ l, p c = false) : l.dropWhile p = l := by
  cases l with
  | nil => rfl
  | cons c cs =>
    simp only [List.dropWhile]
    rw [h c (by simp)]

/-- Trimming text that contains no whitespace is the identity. -/
theorem rustTrim_eq_self (s : List Char) (h : ∀ c ∈ s, rustIsWhitespace c = false) :
    rustTrim s = s := by
  unfold rustTrim
  rw [dropWhile_all_false _ _ h]
  rw [dropWhile_all_false _ _ (fun c hc => h c (List.mem_reverse.mp hc))]
  exact List.reverse_reverse s

/-- Characters accepted by the number scan are never whitespace. -/
theorem numScan_not_ws (c : Char) (h : numScanPred c = true) :
    rustIsWhitespace c = false := by
  unfold numScanPred rustIsNumeric at h
  unfold rustIsWhitespace
  rcases Bool.or_eq_true_iff.mp h with hd | hdot
  · by_contra hw
    simp only [Bool.not_eq_false] at hw
    simp only [Char.isWhitespace, Bool.or_eq_true_iff, decide_eq_true_eq] at hw
    rcases hw with ((rfl | rfl) | rfl) | rfl <;> simp [Char.isDigit] at hd
  · have : c = '.' := by
      simpa using hdot
    subst this
    rfl

/-- An empty character literal (`''`) makes `next_token` panic. -/
theorem nextToken_char_empty (rest : List Char) :
    Lexer.nextToken (Lexer.new ('\x27' :: '\x27' :: rest)) = .fatal ("Char was empty!") := rfl

/-- A character literal with more than one character before the closing
quote makes `next_token` panic. -/
theorem nextToken_char_multi (a c : Char) (rest : List Char)
    (ha : a ≠ '\x27') (hc : c ≠ '\x27') :
    Lexer.nextToken (Lexer.new ('\x27' :: a :: c :: rest)) =
      .fatal ("More than one char inside char!") := by
  simp +decide [Lexer.nextToken, Lexer.new, charIndices, charIndicesFrom,
    Lexer.ignoreWhitespaces, Lexer.nextChar, Lexer.readChar, rustIsWhitespace, ha, hc]

/-- One `next_token` call on a whole-buffer numeric literal: the greedy
scan consumes everything, the slice is the whole buffer, and the result is
decided by trying `i64` first, then `f64`, panicking when both fail. -/
theorem nextToken_number (c : Char) (body : List Char)
    (hc : c ∈ ('0' :: '1' :: '2' :: '3' :: '4' :: '5' :: '6' :: '7' :: '8' :: '9' :: '-' :: []))
    (hb : ∀ x ∈ body, numScanPred x = true) :
    Lexer.nextToken (Lexer.new (c :: body)) =
      (match parseI64 (rustTrim (c :: body)) with
       | some n => .ok (.Int n) ⟨c :: body, [], none⟩
       | none =>
         match parseF64 (rustTrim (c :: body)) with
         | some x => .ok (.Float x) ⟨c :: body, [], none⟩
         | none => .fatal ("Invalid number (got \"" ++ String.mk (c :: body) ++ "\")!")) := by
  have hslice := sliceBytes_full (c :: body)
  have hscan := fun k => scanWhileIter_all numScanPred (byteLen (c :: body)) body k hb
  fin_cases hc <;>
    simp +decide [Lexer.nextToken, Lexer.new, charIndices, charIndicesFrom,
      Lexer.ignoreWhitespaces, Lexer.nextChar, Lexer.readNumber, scanWhile, rustIsWhitespace,
      hscan, hslice] <;>
    (repeat' split) <;> simp_all

/-! The claims. -/

/-- Claim C1: for every input whose first tokens are an optional identifier
followed by `(`, the parser resolves the ambiguity by priority: when an
identifier and `:` immediately follow the `(`, `try_value` commits to a
struct and returns `StructStart` carrying the optional leading identifier;
in every other case it commits to a tuple and returns `TupleStart` with
that name — whether the token after `(` is not an identifier, or is an
identifier followed by something other than `:`, or the input ends after
the `(` or after that identifier.  Concretely, `Name(a: 1)` yields
`StructStart (some "Name")`, `Name(1)` yields `TupleStart (some "Name")`,
`(a: 1)` yields `StructStart none`, `(1)` yields `TupleStart none`, and
the no-colon inputs `(a)`, `Name(a, 1)`, `(a` and `Name(` all yield
`TupleStart`. -/
theorem c1_struct_tuple_disambiguation :
    (∀ (lx : Lexer) (q : List Token) (s : List InternalState) (a b c e : Nat),
      RonDeserializer.tryValue ⟨lx, .Ident a b :: .LParen :: .Ident c e :: .Colon :: q, s⟩ =
        .ok (some (.StructStart (some (sliceBytes lx.src a b))))
          ⟨lx, .Ident c e :: .Colon :: q, .Struct (some (sliceBytes lx.src a b)) :: s⟩) ∧
    (∀ (lx : Lexer) (q : List Token) (s : List InternalState) (c e : Nat),
      RonDeserializer.tryValue ⟨lx, .LParen :: .Ident c e :: .Colon :: q, s⟩ =
        .ok (some (.StructStart none)) ⟨lx, .Ident c e :: .Colon :: q, .Struct none :: s⟩) ∧
    (∀ (lx : Lexer) (q : List Token) (s : List InternalState) (a b : Nat) (t : Token),
      isIdentTok t = false →
      RonDeserializer.tryValue ⟨lx, .Ident a b :: .LParen :: t :: q, s⟩ =
        .ok (some (.TupleStart (some (sliceBytes lx.src a b))))
          ⟨lx, t :: q, .Tuple (some (sliceBytes lx.src a b)) :: s⟩) ∧
    (∀ (lx : Lexer) (q : List Token) (s : List InternalState) (t : Token),
      isIdentTok t = false →
      RonDeserializer.tryValue ⟨lx, .LParen :: t :: q, s⟩ =
        .ok (some (.TupleStart none)) ⟨lx, t :: q, .Tuple none :: s⟩) ∧
    (∀ (lx : Lexer) (q : List Token) (s : List InternalState) (a b c e : Nat) (t : Token),
      t ≠ .Colon →
      RonDeserializer.tryValue ⟨lx, .Ident a b :: .LParen :: .Ident c e :: t :: q, s⟩ =
        .ok (some (.TupleStart (some (sliceBytes lx.src a b))))
          ⟨lx, .Ident c e :: t :: q, .Tuple (some (sliceBytes lx.src a b)) :: s⟩) ∧
    (∀ (lx : Lexer) (q : List Token) (s : List InternalState) (c e : Nat) (t : Token),
      t ≠ .Colon →
      RonDeserializer.tryValue ⟨lx, .LParen :: .Ident c e :: t :: q, s⟩ =
        .ok (some (.TupleStart none)) ⟨lx, .Ident c e :: t :: q, .Tuple none :: s⟩) ∧
    (∀ (src : List Char) (s : List InternalState) (a b c e : Nat),
      RonDeserializer.tryValue
          ⟨⟨src, [], none⟩, .Ident a b :: .LParen :: .Ident c e :: [], s⟩ =
        .ok (some (.TupleStart (some (sliceBytes src a b))))
          ⟨⟨src, [], none⟩, .Ident c e :: [], .Tuple (some (sliceBytes src a b)) :: s⟩) ∧
    (∀ (src : List Char) (s : List InternalState) (c e : Nat),
      RonDeserializer.tryValue ⟨⟨src, [], none⟩, .LParen :: .Ident c e :: [], s⟩ =
        .ok (some (.TupleStart none)) ⟨⟨src, [], none⟩, .Ident c e :: [], .Tuple none :: s⟩) ∧
    (∀ (src : List Char) (s : List InternalState) (a b : Nat),
      RonDeserializer.tryValue ⟨⟨src, [], none⟩, .Ident a b :: .LParen :: [], s⟩ =
        .ok (some (.TupleStart (some (sliceBytes src a b))))
          ⟨⟨src, [], none⟩, [], .Tuple (some (sliceBytes src a b)) :: s⟩) ∧
    (∀ (src : List Char) (s : List InternalState),
      RonDeserializer.tryValue ⟨⟨src, [], none⟩, .LParen :: [], s⟩ =
        .ok (some (.TupleStart none)) ⟨⟨src, [], none⟩, [], .Tuple none :: s⟩) ∧
    eventsOfStr "Name(a: 1)" 1 = [.ev (.StructStart (some (("Name").toList)))] ∧
    eventsOfStr "Name(1)" 1 = [.ev (.TupleStart (some (("Name").toList)))] ∧
    eventsOfStr "(a: 1)" 1 = [.ev (.StructStart none)] ∧
    eventsOfStr "(1)" 1 = [.ev (.TupleStart none)] ∧
    eventsOfStr "(a)" 1 = [.ev (.TupleStart none)] ∧
    eventsOfStr "Name(a, 1)" 1 = [.ev (.TupleStart (some (("Name").toList)))] ∧
    eventsOfStr "(a" 1 = [.ev (.TupleStart none)] ∧
    eventsOfStr "Name(" 1 = [.ev (.TupleStart (some (("Name").toList)))] := by
  refine ⟨?_, ?_, ?_, ?_, ?_, ?_, ?_, ?_, ?_, ?_, ?_, ?_, ?_, ?_, ?_, ?_, ?_, ?_⟩
  · intro lx q s a b c e
    rfl
  · intro lx q s c e
    rfl
  · intro lx q s a b t ht
    cases t <;> simp_all [isIdentTok] <;> rfl
  · intro lx q s t ht
    cases t <;> simp_all [isIdentTok] <;> rfl
  · intro lx q s a b c e t ht
    cases t <;> first | exact absurd rfl ht | rfl
  · intro lx q s c e t ht
    cases t <;> first | exact absurd rfl ht | rfl
  · intro src s a b c e
    rfl
  · intro src s c e
    rfl
  · intro src s a b
    rfl
  · intro src s
    rfl
  · decide
  · decide
  · decide
  · decide
  · decide
  · decide
  · decide
  · decide

/-- Witness for C1: tuple commitments at a concrete non-identifier token
and at a concrete identifier not followed by a colon. -/
theorem c1_witness :
    RonDeserializer.tryValue ⟨Lexer.new [], .Ident 0 1 :: .LParen :: .Int 7 :: [], []⟩ =
      .ok (some (.TupleStart (some (sliceBytes ([] : List Char) 0 1))))
        ⟨Lexer.new [], .Int 7 :: [], .Tuple (some (sliceBytes ([] : List Char) 0 1)) :: []⟩ ∧
    RonDeserializer.tryValue ⟨Lexer.new [], .LParen :: .Int 7 :: [], []⟩ =
      .ok (some (.TupleStart none)) ⟨Lexer.new [], .Int 7 :: [], .Tuple none :: []⟩ ∧
    RonDeserializer.tryValue
        ⟨Lexer.new [], .Ident 0 1 :: .LParen :: .Ident 2 3 :: .Comma :: [], []⟩ =
      .ok (some (.TupleStart (some (sliceBytes ([] : List Char) 0 1))))
        ⟨Lexer.new [], .Ident 2 3 :: .Comma :: [],
          .Tuple (some (sliceBytes ([] : List Char) 0 1)) :: []⟩ ∧
    RonDeserializer.tryValue ⟨Lexer.new [], .LParen :: .Ident 2 3 :: .RParen :: [], []⟩ =
      .ok (some (.TupleStart none))
        ⟨Lexer.new [], .Ident 2 3 :: .RParen :: [], .Tuple none :: []⟩ :=
  ⟨c1_struct_tuple_disambiguation.2.2.1 (Lexer.new []) [] [] 0 1 (.Int 7) (by decide),
   c1_struct_tuple_disambiguation.2.2.2.1 (Lexer.new []) [] [] (.Int 7) (by decide),
   c1_struct_tuple_disambiguation.2.2.2.2.1 (Lexer.new []) [] [] 0 1 2 3 (.Comma)
     (by decide),
   c1_struct_tuple_disambiguation.2.2.2.2.2.1 (Lexer.new []) [] [] 2 3 (.RParen)
     (by decide)⟩

/-- Claim C2: optional transparency.  `Some(` commits `try_value` to the
`OptionalSomeValue` marker with the `OptionalSomeValue` frame pushed; the
next call parses the wrapped value with the `EndedOptionalSomeValue` frame
pushed in its place, so the marker is immediately followed by the wrapped
value's events; and the closing `)` is consumed by the
`EndedOptionalSomeValue` frame without any event being emitted for it.
Concretely, `Some(420)` yields the marker, `Int 420`, then `Eof`. -/
theorem c2_optional_transparency :
    (∀ (lx : Lexer) (q : List Token) (s : List InternalState),
      RonDeserializer.tryValue ⟨lx, .SomeOptValue :: .LParen :: q, s⟩ =
        .ok (some .OptionalSomeValue) ⟨lx, q, .OptionalSomeValue :: s⟩) ∧
    (∀ (lx : Lexer) (q : List Token) (rest : List InternalState) (v : RonEvent)
        (d1 : RonDeserializer),
      RonDeserializer.tryValue ⟨lx, q, .EndedOptionalSomeValue :: rest⟩ = .ok (some v) d1 →
      RonDeserializer.nextEventGo lx q (.OptionalSomeValue :: rest) = .ok v d1) ∧
    (∀ (lx : Lexer) (q : List Token) (rest : List InternalState),
      RonDeserializer.nextEventGo lx (.RParen :: q) (.EndedOptionalSomeValue :: rest) =
        RonDeserializer.nextEventGo lx q rest) ∧
    eventsOfStr "Some(420)" 4 =
      [.ev .OptionalSomeValue, .ev (.Primitive (.Int 420)), .ev .Eof, .ev .Eof] := by
  refine ⟨?_, ?_, ?_, ?_⟩
  · intro lx q s
    rfl
  · intro lx q rest v d1 h
    unfold RonDeserializer.nextEventGo
    rw [h]
  · intro lx q rest
    rfl
  · decide

/-- Witness for C2: the wrapped-value step at a concrete state. -/
theorem c2_witness :
    RonDeserializer.nextEventGo (Lexer.new []) (.Int 5 :: []) (.OptionalSomeValue :: []) =
      .ok (.Primitive (.Int 5)) ⟨Lexer.new [], [], .EndedOptionalSomeValue :: []⟩ :=
  c2_optional_transparency.2.1 (Lexer.new []) (.Int 5 :: []) [] (.Primitive (.Int 5))
    ⟨Lexer.new [], [], .EndedOptionalSomeValue :: []⟩ (by decide)

/-- Counterexample for C4: the grammar-conformant map `{[1]: 1}` (a list
as key) is rejected — the parser emits `MapStart`, then the key's
`ListStart` is cut short by the mandatory `:` check, which panics. -/
theorem c4_counterexample :
    eventsOfStr "\x7b[1]: 1\x7d" 3 = [.ev .MapStart, .fatal ("Expected ':'")] := by
  decide

/-- Claim C4 (amended): after `MapStart`, each entry's key must be a
single-token primitive value; the parser emits the key's `Primitive`
event, requires `:`, and pushes `SecondValue` so the next call parses the
paired value.  Composite keys (list/tuple/struct/map/`Some`) panic at the
`:` check right after the key's start event. -/
theorem c4_amended_primitive_keys :
    ∀ (lx : Lexer) (q : List Token) (rest : List InternalState) (t : Token)
      (p : RonPrimitive),
    tokenPrim lx.src t = some p →
    RonDeserializer.nextEventGo lx (t :: .Colon :: q) (.Map :: rest) =
      .ok (.Primitive p) ⟨lx, q, .SecondValue :: .Map :: rest⟩ := by
  intro lx q rest t p hp
  cases t <;> simp_all [tokenPrim] <;> subst hp <;> rfl

/-- Witness for C4 (amended): an integer key at a concrete state. -/
theorem c4_witness :
    RonDeserializer.nextEventGo (Lexer.new []) (.Int 1 :: .Colon :: .Int 2 :: []) (.Map :: []) =
      .ok (.Primitive (.Int 1)) ⟨Lexer.new [], .Int 2 :: [], .SecondValue :: .Map :: []⟩ :=
  c4_amended_primitive_keys (Lexer.new []) (.Int 2 :: []) [] (.Int 1) (.Int 1) (by decide)

/-- Counterexample for C5: on the unterminated string `"abc`, `next_token`
reports ordinary end of input (`None`), not a fatal lex error. -/
theorem c5_counterexample :
    (Lexer.new (('\x22' :: 'a' :: 'b' :: 'c' :: []))).nextToken = .eof := by
  decide

/-- Claim C5 (amended): for every input in which a string literal's
opening quote is not followed by a closing quote before the input ends,
`next_token` reports ordinary end of input (returns `None`), consuming the
rest of the input; no token and no fatal error is produced. -/
theorem c5_unterminated_string_eof :
    ∀ (rest : List Char), (∀ ch ∈ rest, ch ≠ '"') →
    Lexer.nextToken (Lexer.new ('"' :: rest)) = .eof := by
  intro rest h
  have hq := seekQuoteIter_none rest (0 + Char.utf8Size '"') h
  exact nextToken_unterminated rfl hq

/-- Witness for C5 (amended). -/
theorem c5_witness :
    Lexer.nextToken (Lexer.new ('"' :: ('a' :: 'b' :: 'c' :: []))) = .eof :=
  c5_unterminated_string_eof ('a' :: 'b' :: 'c' :: []) (by decide)

/-- Claim C6: trailing commas are tolerated in every container — a comma
immediately before the closing delimiter changes nothing, both at the
token level in every container context and on whole inputs, where
`[1, 2,]` produces the identical event sequence as `[1, 2]` (and likewise
for tuples, structs and maps). -/
theorem c6_trailing_comma :
    (∀ (lx : Lexer) (q : List Token) (rest : List InternalState),
      RonDeserializer.nextEventGo lx (.Comma :: .RCurly :: q) (.Map :: rest) =
        RonDeserializer.nextEventGo lx (.RCurly :: q) (.Map :: rest)) ∧
    (∀ (lx : Lexer) (q : List Token) (rest : List InternalState) (name : Option (List Char)),
      RonDeserializer.nextEventGo lx (.Comma :: .RParen :: q) (.Struct name :: rest) =
        RonDeserializer.nextEventGo lx (.RParen :: q) (.Struct name :: rest)) ∧
    (∀ (lx : Lexer) (q : List Token) (rest : List InternalState) (name : Option (List Char)),
      RonDeserializer.nextEventGo lx (.Comma :: .RParen :: q) (.Tuple name :: rest) =
        RonDeserializer.nextEventGo lx (.RParen :: q) (.Tuple name :: rest)) ∧
    (∀ (lx : Lexer) (q : List Token) (rest : List InternalState),
      RonDeserializer.nextEventGo lx (.Comma :: .RBracket :: q) (.List :: rest) =
        RonDeserializer.nextEventGo lx (.RBracket :: q) (.List :: rest)) ∧
    eventsOfStr "[1, 2,]" 5 = eventsOfStr "[1, 2]" 5 ∧
    eventsOfStr "(1, 2,)" 5 = eventsOfStr "(1, 2)" 5 ∧
    eventsOfStr "(a: 1,)" 5 = eventsOfStr "(a: 1)" 5 ∧
    eventsOfStr "\x7b\x221\x22: 2,\x7d" 5 = eventsOfStr "\x7b\x221\x22: 2\x7d" 5 := by
  refine ⟨?_, ?_, ?_, ?_, ?_, ?_, ?_, ?_⟩
  · intro lx q rest
    rfl
  · intro lx q rest name
    rfl
  · intro lx q rest name
    rfl
  · intro lx q rest
    rfl
  · decide
  · decide
  · decide
  · decide

/-- Claim C3: balanced nesting.  An end event of kind `K` (with, for
structs and tuples, its name) is only produced while the `K` frame is the
innermost still-open container — on the stack under only transparent
`EndedOptionalSomeValue` frames — and producing it pops exactly down to
below that frame.  On whole well-formed inputs the produced event
sequence is properly nested, as checked by the open-container simulation
on concrete nested inputs. -/
theorem c3_balanced_nesting :
    (∀ (s : List InternalState) (lx : Lexer) (q : List Token) (e : RonEvent)
        (d' : RonDeserializer),
      RonDeserializer.nextEventGo lx q s = .ok e d' →
      (e = .MapEnd → ∃ k rest,
        s = List.replicate k .EndedOptionalSomeValue ++ .Map :: rest ∧ d'.stack = rest) ∧
      (e = .ListEnd → ∃ k rest,
        s = List.replicate k .EndedOptionalSomeValue ++ .List :: rest ∧ d'.stack = rest) ∧
      (∀ nm, e = .TupleEnd nm → ∃ k rest,
        s = List.replicate k .EndedOptionalSomeValue ++ .Tuple nm :: rest ∧
        d'.stack = rest) ∧
      (∀ nm, e = .StructEnd nm → ∃ k rest,
        s = List.replicate k .EndedOptionalSomeValue ++ .Struct nm :: rest ∧
        d'.stack = rest)) ∧
    (okEvents (eventsOfStr "Named(a: [1, (2, 3)], b: \x7b\x22k\x22: Some(4)\x7d)" 17)).map
      balanced = some true ∧
    (okEvents (eventsOfStr "[Some((1, 2)), \x7b1: (a: 2)\x7d]" 15)).map balanced =
      some true := by
  refine ⟨?_, ?_, ?_⟩
  · intro s lx q e d' h
    obtain ⟨c1, c2, c3, c4, _⟩ := nextEventGo_shape s lx q e d' h
    exact ⟨c1, c2, c3, c4⟩
  · decide
  · decide

/-- Witness for C3: a `MapEnd` produced with `Map` on top of the stack
pops exactly that frame. -/
theorem c3_witness :
    ∃ k rest, (.Map :: [] : List InternalState) =
      List.replicate k .EndedOptionalSomeValue ++ .Map :: rest ∧
      (⟨Lexer.new [], [], []⟩ : RonDeserializer).stack = rest :=
  (c3_balanced_nesting.1 (.Map :: []) (Lexer.new []) (.RCurly :: []) .MapEnd
    ⟨Lexer.new [], [], []⟩ (by decide)).1 rfl

/-- Claim C7: once `next_event` has returned `Eof`, every subsequent call
returns `Eof` again with the state unchanged — the terminal state is
idempotent and produces neither further events nor errors. -/
theorem c7_eof_idempotent {d d' : RonDeserializer}
    (h : d.nextEvent = .ok .Eof d') : d'.nextEvent = .ok .Eof d' := by
  obtain ⟨lxd, qd, sd⟩ := d'
  unfold RonDeserializer.nextEvent at h ⊢
  obtain ⟨hstack, lz, qz, heq⟩ :=
    (nextEventGo_shape d.stack d.lexer d.tok_queue _ _ h).2.2.2.2 rfl
  dsimp only at hstack ⊢
  subst hstack
  have habs := tryValue_absorb heq
  unfold RonDeserializer.nextEventGo
  rw [habs]

/-- Witness for C7. -/
theorem c7_witness :
    RonDeserializer.nextEvent ⟨⟨([] : List Char), [], none⟩, [], []⟩ =
      .ok .Eof ⟨⟨([] : List Char), [], none⟩, [], []⟩ := by
  have ht : (RonDeserializer.new []).nextEvent =
      .ok .Eof ⟨⟨([] : List Char), [], none⟩, [], []⟩ := by decide
  exact c7_eof_idempotent ht

/-- Claim C8: each speculative alternative of `try_value` is
side-effect-free until it commits — whenever an alternative fails and
returns `None`, it has pushed every consumed token back so that
subsequent `next_token` calls observe exactly the original token stream,
and it has left the context stack unchanged (and, having returned `None`,
emitted no event). -/
theorem c8_speculative_rollback :
    (∀ d d' : RonDeserializer, d.tryStruct = .ok none d' →
      d'.stack = d.stack ∧ ∀ n, takeTokens n d' = takeTokens n d) ∧
    (∀ d d' : RonDeserializer, d.tryTuple = .ok none d' →
      d'.stack = d.stack ∧ ∀ n, takeTokens n d' = takeTokens n d) ∧
    (∀ d d' : RonDeserializer, d.tryPrimitive = .ok none d' →
      d'.stack = d.stack ∧ ∀ n, takeTokens n d' = takeTokens n d) ∧
    (∀ d d' : RonDeserializer, d.tryOptionalSome = .ok none d' →
      d'.stack = d.stack ∧ ∀ n, takeTokens n d' = takeTokens n d) ∧
    (∀ d d' : RonDeserializer, d.tryMap = .ok none d' →
      d'.stack = d.stack ∧ ∀ n, takeTokens n d' = takeTokens n d) ∧
    (∀ d d' : RonDeserializer, d.tryList = .ok none d' →
      d'.stack = d.stack ∧ ∀ n, takeTokens n d' = takeTokens n d) :=
  ⟨fun _ _ h => tryStruct_rollback h, fun _ _ h => tryTuple_rollback h,
   fun _ _ h => tryPrimitive_rollback h, fun _ _ h => tryOptionalSome_rollback h,
   fun _ _ h => tryMap_rollback h, fun _ _ h => tryList_rollback h⟩

/-- Witness for C8: a failed `try_struct` on a concrete state. -/
theorem c8_witness :
    (⟨Lexer.new [], .Comma :: [], []⟩ : RonDeserializer).stack =
      (⟨Lexer.new [], .Comma :: [], []⟩ : RonDeserializer).stack ∧
    takeTokens 3 ⟨Lexer.new [], .Comma :: [], []⟩ =
      takeTokens 3 ⟨Lexer.new [], .Comma :: [], []⟩ :=
  ⟨(c8_speculative_rollback.1 ⟨Lexer.new [], .Comma :: [], []⟩
      ⟨Lexer.new [], .Comma :: [], []⟩ (by decide)).1,
   (c8_speculative_rollback.1 ⟨Lexer.new [], .Comma :: [], []⟩
      ⟨Lexer.new [], .Comma :: [], []⟩ (by decide)).2 3⟩

/-- Claim C9: malformed character and number literals are fatal lex
errors.  A character literal with zero characters between the quotes, or
with a second character that is not a closing quote, panics; a numeric
slice (a leading digit or `-`, then the greedy digit/dot scan) that
parses neither as a 64-bit signed integer nor as a 64-bit float panics;
and when the slice does parse, the integer interpretation is attempted
before the float one. -/
theorem c9_malformed_literals :
    (∀ rest : List Char,
      Lexer.nextToken (Lexer.new ('\x27' :: '\x27' :: rest)) = .fatal ("Char was empty!")) ∧
    (∀ (a c : Char) (rest : List Char), a ≠ '\x27' → c ≠ '\x27' →
      Lexer.nextToken (Lexer.new ('\x27' :: a :: c :: rest)) =
        .fatal ("More than one char inside char!")) ∧
    (∀ (c : Char) (body : List Char),
      c ∈ ('0' :: '1' :: '2' :: '3' :: '4' :: '5' :: '6' :: '7' :: '8' :: '9' :: '-' :: []) →
      (∀ x ∈ body, numScanPred x = true) →
      parseI64 (rustTrim (c :: body)) = none →
      parseF64 (rustTrim (c :: body)) = none →
      Lexer.nextToken (Lexer.new (c :: body)) =
        .fatal ("Invalid number (got \"" ++ String.mk (c :: body) ++ "\")!")) ∧
    (∀ (c : Char) (body : List Char) (n : Int),
      c ∈ ('0' :: '1' :: '2' :: '3' :: '4' :: '5' :: '6' :: '7' :: '8' :: '9' :: '-' :: []) →
      (∀ x ∈ body, numScanPred x = true) →
      parseI64 (rustTrim (c :: body)) = some n →
      Lexer.nextToken (Lexer.new (c :: body)) = .ok (.Int n) ⟨c :: body, [], none⟩) ∧
    (∀ (c : Char) (body : List Char) (x : Rat),
      c ∈ ('0' :: '1' :: '2' :: '3' :: '4' :: '5' :: '6' :: '7' :: '8' :: '9' :: '-' :: []) →
      (∀ x ∈ body, numScanPred x = true) →
      parseI64 (rustTrim (c :: body)) = none →
      parseF64 (rustTrim (c :: body)) = some x →
      Lexer.nextToken (Lexer.new (c :: body)) = .ok (.Float x) ⟨c :: body, [], none⟩) := by
  refine ⟨nextToken_char_empty, nextToken_char_multi, ?_, ?_, ?_⟩
  · intro c body hc hb hI hF
    rw [nextToken_number c body hc hb, hI, hF]
  · intro c body n hc hb hI
    rw [nextToken_number c body hc hb, hI]
  · intro c body x hc hb hI hF
    rw [nextToken_number c body hc hb, hI, hF]

/-- Witness for C9: `'ab'`, the doubly-dotted `1.2.3` and the plain
integer `69` at concrete inputs. -/
theorem c9_witness :
    Lexer.nextToken (Lexer.new ('\x27' :: 'a' :: 'b' :: ('\x27' :: []))) =
      .fatal ("More than one char inside char!") ∧
    Lexer.nextToken (Lexer.new ('1' :: ('.' :: '2' :: '.' :: '3' :: []))) =
      .fatal ("Invalid number (got \"" ++ String.mk ('1' :: ('.' :: '2' :: '.' :: '3' :: [])) ++ "\")!") ∧
    Lexer.nextToken (Lexer.new ('6' :: ('9' :: []))) =
      .ok (.Int 69) ⟨'6' :: ('9' :: []), [], none⟩ :=
  ⟨c9_malformed_literals.2.1 'a' 'b' ('\x27' :: []) (by decide) (by decide),
   c9_malformed_literals.2.2.1 '1' ('.' :: '2' :: '.' :: '3' :: []) (by decide) (by decide)
     (by decide) (by decide),
   c9_malformed_literals.2.2.2.1 '6' ('9' :: []) 69 (by decide) (by decide) (by decide)⟩

/-- Claim C10: lexing the empty string literal returns a `Str` token with
the fixed span `[0, 0)` — the start of the buffer, wherever the literal
occurs — so the recovered text is always empty, but the span does not
locate the literal: in `a ""` the literal sits at bytes 2–4 yet its token
is `Str 0 0`. -/
theorem c10_empty_string_span :
    (∀ (src : List Char) (it : List (Nat × Char)) (i j : Nat),
      Lexer.nextToken ⟨src, (j, '"') :: it, some (i, '"')⟩ =
        .ok (.Str 0 0) ⟨src, it, none⟩) ∧
    (∀ l : Lexer, l.getString 0 0 = []) ∧
    lexTake 3 (Lexer.new (("a \x22\x22").toList)) =
      [.tok (some (.Ident 0 1)), .tok (some (.Str 0 0)), .tok none] := by
  refine ⟨?_, ?_, ?_⟩
  · intro src it i j
    rfl
  · intro l
    exact sliceBytes_zero l.src
  · decide

end LightRon
